import Mathlib

/-!
Verification of `stacked-pr-sync`.

A shallow embedding of the branch-sequencing workflow of the
`stacked-pr-sync` repository, together with theorems settling the frozen
claims about it.

The embedding has two layers, matching the structure of the source:

* a deterministic git-repository model (`Repo`) for the functions of
  `src/utils/git.js` that manipulate repository state directly
  (`performDryRunMerge`, `getBranchStatus`).  Content-dependent facts that
  the model cannot compute (whether merging two given commits conflicts)
  are supplied by an oracle field `Repo.mergeOutcome`; every git command
  the code issues is modelled with its documented success/failure
  semantics.

* an orchestrator model for `src/services/sync-manager.js` and
  `src/services/conflict-detector.js`: a state/exception monad `M` over a
  `World` holding an environment of command outcomes (`Env`), the current
  branch, the queue of interactive answers, and a log of structured
  events (`Ev`).  A thrown JS exception is `Res.js`, a `process.exit(c)`
  is `Res.exit c`; the orchestrator `try/catch` catches only `Res.js`,
  exactly as a JS `catch` does not intercept `process.exit`.

Log text is abstracted to structured events; control flow, error
propagation and the order of git operations follow the JS source
line by line.
-/

/-! ## Layer 1: the git repository model (src/utils/git.js) -/

/-- Content-determined outcome of `git merge <src> --no-commit --no-ff`
run with a given commit checked out: a clean merge left staged but
uncommitted, an already-up-to-date no-op, a conflicted merge leaving
unmerged-path markers, or a failure that does not start a merge at all
(for example an untracked-file collision). -/
inductive MergeOutcome where
  | clean
  | upToDate
  | conflict
  | failNoStart
  deriving DecidableEq, Repr

/-- The repository state the probe manipulates.  `tip` assigns a commit
identifier to every branch name; `mergeOutcome x y` is the
content-determined outcome of trial-merging commit `x` while commit `y`
is checked out.  `mip` models the presence of `MERGE_HEAD` (a merge in
progress); `conflicted` models unmerged-path markers (`UU`/`AA`/`DD`) in
`git status --porcelain`. -/
structure Repo where
  head : String
  branches : List String
  tip : String → Nat
  mergeOutcome : Nat → Nat → MergeOutcome
  mip : Bool
  conflicted : Bool

/-- Result record of `performDryRunMerge` (`{ hasConflicts, error }`). -/
structure ProbeResult where
  hasConflicts : Bool
  error : Option String
  deriving DecidableEq, Repr

/-- The disposable branch name `temp-dry-run-${Date.now()}`. -/
def tempName (now : Nat) : String := "temp-dry-run-" ++ toString now

/-- `git checkout -b <temp> <fromBr>`: succeeds iff the base branch
exists, the new name is unused and no conflicted merge blocks the
checkout; on success the new branch points at the tip of the base and is
checked out. -/
def gitCheckoutNewBranch (temp fromBr : String) (r : Repo) : Option Repo :=
  if fromBr ∈ r.branches ∧ temp ∉ r.branches ∧ r.conflicted = false then
    some { r with head := temp, branches := temp :: r.branches,
                  tip := fun b => if b = temp then r.tip fromBr else r.tip b }
  else none

/-- `git merge <src> --no-commit --no-ff`: fails without starting when
`src` does not exist; otherwise behaves per the content oracle.  The
returned flag is the command success (`execSync` not throwing). -/
def gitMergeNoCommit (src : String) (r : Repo) : Bool × Repo :=
  if src ∈ r.branches then
    match r.mergeOutcome (r.tip src) (r.tip r.head) with
    | .clean => (true, { r with mip := true })
    | .upToDate => (true, r)
    | .conflict => (false, { r with mip := true, conflicted := true })
    | .failNoStart => (false, r)
  else (false, r)

/-- `git merge --abort`: succeeds iff a merge is in progress, restoring a
clean working tree; with no `MERGE_HEAD` it fails. -/
def gitMergeAbort (r : Repo) : Option Repo :=
  if r.mip then some { r with mip := false, conflicted := false } else none

/-- `git status --porcelain` inspected for `UU`/`AA`/`DD` markers. -/
def gitStatusHasMarkers (r : Repo) : Bool := r.conflicted

/-- `git checkout <b>`: succeeds iff the branch exists and no conflicted
merge blocks it. -/
def gitCheckout (b : String) (r : Repo) : Option Repo :=
  if b ∈ r.branches ∧ r.conflicted = false then some { r with head := b } else none

/-- `git branch -D <b>`: force delete, fails iff the branch is missing or
currently checked out. -/
def gitBranchDelete (b : String) (r : Repo) : Option Repo :=
  if b ∈ r.branches ∧ r.head ≠ b then some { r with branches := r.branches.erase b }
  else none

/-- The `finally` block of `performDryRunMerge`: checkout the recorded
branch, then delete the disposable branch; a failure of either command is
swallowed (`// Ignore cleanup errors`), and a failed checkout skips the
delete, exactly as in the source. -/
def probeCleanup (currentBranch temp : String) (r : Repo) : Repo :=
  match gitCheckout currentBranch r with
  | none => r
  | some r1 =>
    match gitBranchDelete temp r1 with
    | none => r1
    | some r2 => r2

/-- `performDryRunMerge(sourceBranch, targetBranch)` from
src/utils/git.js lines 140-181: record the current branch, create the
disposable branch from the target, trial-merge the source into it, read
conflict markers from the status on failure, abort the trial merge, and
in all cases run the cleanup block before returning.  Every `catch` of
the source corresponds to a `none`/failure branch here; the outer catch
returns `{ hasConflicts: false, error }`. -/
def performDryRunMerge (now : Nat) (sourceBranch targetBranch : String) (r : Repo) :
    ProbeResult × Repo :=
  let temp := tempName now
  let currentBranch := r.head
  let body : ProbeResult × Repo :=
    match gitCheckoutNewBranch temp targetBranch r with
    | none => (⟨false, some "checkout -b failed"⟩, r)
    | some r1 =>
      match gitMergeNoCommit sourceBranch r1 with
      | (true, r2) =>
        match gitMergeAbort r2 with
        | some r3 => (⟨false, none⟩, r3)
        | none => (⟨false, some "merge abort failed"⟩, r2)
      | (false, r2) =>
        let hc := gitStatusHasMarkers r2
        match gitMergeAbort r2 with
        | some r3 => (⟨hc, some "merge failed"⟩, r3)
        | none => (⟨false, some "merge abort failed"⟩, r2)
  (body.1, probeCleanup currentBranch temp body.2)

/-- One entry of the list built by `checkAllPotentialConflicts`
(`{ sourceBranch, targetBranch, error }`). -/
structure ConflictEntry where
  source : String
  target : String
  error : Option String
  deriving DecidableEq, Repr

/-- The loop body of `checkAllPotentialConflicts` over an explicit list
of adjacent-pair indices, threading the repository state through the
successive probes. -/
def checkAllRepoAux (nows : Nat → Nat) (bs : List String) :
    List Nat → Repo → List ConflictEntry × Repo
  | [], r => ([], r)
  | j :: js, r =>
    let p := performDryRunMerge (nows j) (bs.getD j "") (bs.getD (j + 1) "") r
    let rest := checkAllRepoAux nows bs js p.2
    (if p.1.hasConflicts then ⟨bs.getD j "", bs.getD (j + 1) "", p.1.error⟩ :: rest.1
     else rest.1, rest.2)

/-- `checkAllPotentialConflicts(branches)` from
src/services/conflict-detector.js: probe every adjacent pair
`(branches[i], branches[i+1])` for `i` in `0 .. branches.length - 2` and
collect the pairs whose probe reported conflicts. -/
def checkAllPotentialConflictsRepo (nows : Nat → Nat) (bs : List String) (r : Repo) :
    List ConflictEntry × Repo :=
  checkAllRepoAux nows bs (List.range (bs.length - 1)) r

/-- Whether the trial no-commit, no-fast-forward merge of `src` into a
branch at the tip of `tgt` leaves unmerged-path markers in the working
tree: by the repository model this is exactly a `conflict` outcome of the
content oracle on the two tips. -/
def trialMergeLeavesMarkers (r : Repo) (src tgt : String) : Prop :=
  r.mergeOutcome (r.tip src) (r.tip tgt) = .conflict

instance (r : Repo) (src tgt : String) : Decidable (trialMergeLeavesMarkers r src tgt) := by
  unfold trialMergeLeavesMarkers; infer_instance

/-! ### Branch status reporting (src/utils/git.js lines 184-225) -/

/-- Outcomes of the raw git queries `getBranchStatus` issues for one
branch: the local `show-ref` verification, `rev-parse origin/<b>`,
`rev-parse <b>`, and the two commit identifiers compared when both
resolve. -/
structure BranchQ where
  showRefOk : Bool
  remoteRevParseOk : Bool
  localRevParseOk : Bool
  localTip : Nat
  remoteTip : Nat

/-- The record `getBranchStatus` returns. -/
structure BranchStatusR where
  branch : String
  localExists : Bool
  remoteExists : Bool
  isInSync : Bool
  syncStatus : String
  deriving DecidableEq, Repr

/-- `getBranchStatus(branchName)`: the outer catch turns a failing local
`show-ref` into the `not-found` record with all flags false; the inner
catch turns a failing remote (or subsequent local) `rev-parse` into
`no-remote`; otherwise local and remote commits are compared. -/
def getBranchStatus (q : BranchQ) (branchName : String) : BranchStatusR :=
  if q.showRefOk = false then
    ⟨branchName, false, false, false, "not-found"⟩
  else if q.remoteRevParseOk then
    if q.localRevParseOk then
      let inSync := q.localTip = q.remoteTip
      ⟨branchName, true, true, decide inSync, if inSync then "in-sync" else "out-of-sync"⟩
    else
      ⟨branchName, true, false, false, "no-remote"⟩
  else
    ⟨branchName, true, false, false, "no-remote"⟩

/-! ## Layer 2: the orchestrator model (src/services/sync-manager.js) -/

/-- Structured log events.  Each constructor corresponds to a message (or
prompt) the JS source emits at a specific line; free-text payloads are
abstracted away. -/
inductive Ev where
  | statusLine (branch status : String)
  | allInSync
  | noOriginInfo
  | syncPrompt
  | syncBranch (b : String)
  | skipConflictCheckWarn
  | probe (i : Nat)
  | preConflictHeader (n : Nat)
  | preConflictPair (src tgt : String)
  | preInstructions
  | noPreConflicts
  | mergeStep (i : Nat)
  | mergeAttempt (i : Nat) (src : String)
  | mergeFailedNonConflict (src tgt : String)
  | conflictsDetected (src tgt : String)
  | restartInstructions
  | successReport
  | pushPrompt
  | pushBranch (b : String)
  | skipPushInfo
  | returningToOriginal (b : String)
  | restoringStash
  | stashPopWarning
  | stashPopManualHint
  | stashed
  | caughtError (msg : String)
  | info (msg : String)
  deriving DecidableEq, Repr

/-- Environment of external outcomes for one orchestrator run: results of
the git commands it shells out to, the per-call-site oracles for the
merge loop, and the configuration that `loadConfig` produced.  Probe
results in the pre-check phase are abstracted to the per-pair oracle
`probeConflict`; their faithful computation is the Layer 1 model. -/
structure SettingsJ where
  preConflictCheck : Option Bool

structure ConfigJ where
  settings : Option SettingsJ

structure Env where
  inGitRepo : Bool
  statusQueryOk : Bool
  dirty : Bool
  stashOk : Bool
  curBranchOk : Bool
  initialBranch : String
  q : String → BranchQ
  originExists : Bool
  config : Option ConfigJ
  probeConflict : Nat → Bool
  switchOk : Nat → Bool
  mergeOk : Nat → Bool
  conflictAfter : Nat → Bool
  coOk : String → Bool
  pullOk : String → Bool
  pushOk : String → Bool
  restoreSwitchOk : Bool
  stashPopOk : Bool

/-- Mutable run state: the read-only environment, the branch currently
checked out, the queue of interactive answers, and the event log
(newest first). -/
structure World where
  env : Env
  head : String
  answers : List String
  events : List Ev

/-- Result of a computation: normal value, `process.exit(code)`, or a
thrown JS exception. -/
inductive Res (α : Type) where
  | ok (a : α)
  | exit (code : Nat)
  | js (msg : String)

/-- The orchestrator monad: state over `World` with the two abnormal
outcomes of `Res`. -/
def M (α : Type) : Type := World → Res α × World

def Mpure (a : α) : M α := fun w => (.ok a, w)

def Mbind (x : M α) (f : α → M β) : M β := fun w =>
  match x w with
  | (.ok a, w1) => f a w1
  | (.exit c, w1) => (.exit c, w1)
  | (.js m, w1) => (.js m, w1)

instance instMonadM : Monad M where
  pure := Mpure
  bind := Mbind

def getEnv : M Env := fun w => (.ok w.env, w)

def getHead : M String := fun w => (.ok w.head, w)

def setHead (b : String) : M Unit := fun w => (.ok (), { w with head := b })

def emit (e : Ev) : M Unit := fun w => (.ok (), { w with events := e :: w.events })

def emitAll (evs : List Ev) : M Unit := fun w => (.ok (), { w with events := evs ++ w.events })

/-- `rl.question(...)`: consume the next interactive answer (empty string
when the scripted answers run out). -/
def popAnswer : M String := fun w =>
  match w.answers with
  | [] => (.ok "", w)
  | a :: rest => (.ok a, { w with answers := rest })

def throwJs (msg : String) : M α := fun w => (.js msg, w)

def exitProc (code : Nat) : M α := fun w => (.exit code, w)

/-- A JS `try { .. } catch (error) { .. }`: intercepts thrown exceptions
but not `process.exit`. -/
def tryCatchJs (x : M α) (h : String → M α) : M α := fun w =>
  match x w with
  | (.ok a, w1) => (.ok a, w1)
  | (.exit c, w1) => (.exit c, w1)
  | (.js m, w1) => h m w1

/-! ### Embedded utility calls -/

/-- `checkGitRepo()`: true/false, never throws. -/
def checkGitRepoM : M Bool := do pure (← getEnv).inGitRepo

/-- `isWorkingDirectoryClean()`: throws when the status query fails,
otherwise reports cleanliness. -/
def isWorkingDirectoryCleanM : M Bool := do
  let env ← getEnv
  if env.statusQueryOk then pure (!env.dirty) else throwJs "Failed to check git status"

/-- `getCurrentBranch()`: the tracked current branch, or a thrown error. -/
def getCurrentBranchM : M String := do
  let env ← getEnv
  if env.curBranchOk then getHead else throwJs "Failed to get current branch name"

/-- `switchToBranch(branchName)` at merge-loop step `i`: on success the
branch becomes current, otherwise the function throws. -/
def switchToBranchM (i : Nat) (b : String) : M Unit := do
  let env ← getEnv
  if env.switchOk i then setHead b else throwJs ("Failed to switch to branch: " ++ b)

/-- `switchToBranch(originalBranch)` in the restore step. -/
def switchToBranchRestoreM (b : String) : M Unit := do
  let env ← getEnv
  if env.restoreSwitchOk then setHead b else throwJs ("Failed to switch to branch: " ++ b)

/-- `mergeFromBranch(sourceBranch)` at step `i`: runs the merge
(recorded as an event), returns the success flag, never throws. -/
def mergeFromBranchM (i : Nat) (src : String) : M Bool := do
  emit (.mergeAttempt i src)
  pure ((← getEnv).mergeOk i)

/-- `hasConflicts()` inspected after a failed merge at step `i`. -/
def hasConflictsM (i : Nat) : M Bool := do pure ((← getEnv).conflictAfter i)

/-- The binding the orchestrator received for `checkOriginExists` from
the git utils module: the module exports of src/utils/git.js
(lines 246-258) do not include `checkOriginExists`, so the shipped
binding is `undefined` and calling it throws (`missing`); `provided`
is the completed binding used to analyse the phases behind that call. -/
inductive OriginBinding where
  | missing
  | provided

/-- Modelled from the spec: `checkOriginExists` is called by the
orchestrator but neither defined nor exported in src/utils/git.js; per
spec sections 4.1 and 4.3 it reports whether a remote named `origin` is
configured, which the environment records as `originExists`. -/
def checkOriginExistsSpec : M Bool := do pure (← getEnv).originExists

/-- The call `checkOriginExists()` under a given binding. -/
def checkOriginExistsM : OriginBinding → M Bool
  | .missing => throwJs "checkOriginExists is not a function"
  | .provided => checkOriginExistsSpec

/-! ### Branch status report (checkBranchStatuses, lines 20-67) -/

/-- The report loop of `checkBranchStatuses`: one `getBranchStatus` per
branch, collecting the statuses in order, the out-of-sync branches, and
the per-branch status lines. -/
def checkBranchStatusesAux (env : Env) :
    List String → List BranchStatusR × List String × List Ev
  | [] => ([], [], [])
  | b :: rest =>
    let st := getBranchStatus (env.q b) b
    let acc := checkBranchStatusesAux env rest
    (st :: acc.1,
     (if st.syncStatus = "out-of-sync" then b :: acc.2.1 else acc.2.1),
     .statusLine b st.syncStatus :: acc.2.2)

/-- `checkBranchStatuses(branches)`: emits the status report and returns
`{ branchStatuses, outOfSyncBranches }`.  The loop itself never throws:
`getBranchStatus` catches every query failure internally. -/
def checkBranchStatusesM (bs : List String) : M (List BranchStatusR × List String) := do
  let env ← getEnv
  let acc := checkBranchStatusesAux env bs
  emitAll acc.2.2
  pure (acc.1, acc.2.1)

/-! ### Remote-sync handling (lines 83-185) -/

/-- `syncAllBranches(branches)`: checkout + pull each branch, failures
logged and skipped (`try/catch` per branch). -/
def syncAllBranchesM (bs : List String) : M Unit :=
  bs.forM fun b => do
    emit (.syncBranch b)
    let env ← getEnv
    if env.coOk b then do
      setHead b
      if env.pullOk b then emit (.info "synced") else emit (.info "sync failed")
    else emit (.info "sync failed")

/-- `syncBranchesOneByOne(branches)`: per-branch confirmation then the
same checkout + pull body. -/
def syncBranchesOneByOneM (bs : List String) : M Unit :=
  bs.forM fun b => do
    let ans ← popAnswer
    if ans = "y" ∨ ans = "yes" then do
      let env ← getEnv
      if env.coOk b then do
        setHead b
        if env.pullOk b then emit (.info "synced") else emit (.info "sync failed")
      else emit (.info "sync failed")
    else emit (.info "skipping")

/-- `handleOutOfSyncBranches(outOfSyncBranches)`: the four-way menu;
choice 4 and invalid input call `process.exit(1)`. -/
def handleOutOfSyncBranchesM (oos : List String) : M Unit := do
  emit .syncPrompt
  let ans ← popAnswer
  if ans = "1" then syncAllBranchesM oos
  else if ans = "2" then syncBranchesOneByOneM oos
  else if ans = "3" then emit (.info "continuing without sync")
  else if ans = "4" then exitProc 1
  else exitProc 1

/-! ### Conflict pre-check phase (lines 276-285 and conflict-detector) -/

/-- Line 277: `!config || !config.settings ||
config.settings.preConflictCheck.enabled`; reading `.enabled` off a
missing `preConflictCheck` key throws. -/
def shouldCheckConflictsM : M Bool := do
  let env ← getEnv
  match env.config with
  | none => pure true
  | some c =>
    match c.settings with
    | none => pure true
    | some s =>
      match s.preConflictCheck with
      | none => throwJs "Cannot read properties of undefined"
      | some enabled => pure enabled

/-- The pre-check loop of `checkAllPotentialConflicts` at the
orchestrator level: the per-pair probe outcome is the oracle
`probeConflict` (its faithful computation is
`checkAllPotentialConflictsRepo` in Layer 1). -/
def probeAux (bs : List String) : Nat → Nat → M (List ConflictEntry)
  | 0, _ => pure []
  | fuel + 1, j => do
    let src := bs.getD j ""
    let tgt := bs.getD (j + 1) ""
    emit (.probe j)
    let env ← getEnv
    if env.probeConflict j then do
      let rest ← probeAux bs fuel (j + 1)
      pure (⟨src, tgt, some "merge failed"⟩ :: rest)
    else
      probeAux bs fuel (j + 1)

def checkAllPotentialConflictsM (bs : List String) : M (List ConflictEntry) :=
  probeAux bs (bs.length - 1) 0

/-- `handlePreDetectedConflicts(conflicts)` from
src/services/conflict-detector.js: with no conflicts it reports success
and returns true.  With conflicts it lists them and then calls
`logWarning(...)` — but both source variants import only `logStep`,
`logSuccess`, `logError`, `logInfo` from the logger, so that call raises
`ReferenceError: logWarning is not defined`.  The resolution
instructions (and, in one variant, the continue/abort prompt; in the
other, `process.exit(1)`) that follow in the source are unreachable. -/
def handlePreDetectedConflictsM (cs : List ConflictEntry) : M Bool := do
  if cs.isEmpty then do
    emit .noPreConflicts
    pure true
  else do
    emit (.preConflictHeader cs.length)
    cs.forM fun c => emit (.preConflictPair c.source c.target)
    throwJs "logWarning is not defined"

/-! ### The real merge loop (lines 290-311) -/

/-- `handleConflicts(currentBranch, sourceBranch)` (lines 189-218):
conflict report, resolution and restart instructions, then
`process.exit(1)` — it never returns. -/
def handleConflictsM (currentBranch sourceBranch : String) : M α := do
  emit (.conflictsDetected sourceBranch currentBranch)
  emit .restartInstructions
  exitProc 1

/-- One iteration of the real merge loop: switch to `branches[i+1]`,
merge `branches[i]` into it; on a failed merge either stop terminally on
conflict markers or log the failure and break.  Returns whether the loop
continues. -/
def mergeStepM (bs : List String) (i : Nat) : M Bool := do
  let currentBranch := bs.getD i ""
  let nextBranch := bs.getD (i + 1) ""
  emit (.mergeStep i)
  switchToBranchM i nextBranch
  let mergeSuccess ← mergeFromBranchM i currentBranch
  if mergeSuccess then pure true
  else do
    let conf ← hasConflictsM i
    if conf then handleConflictsM nextBranch currentBranch
    else do
      emit (.mergeFailedNonConflict currentBranch nextBranch)
      pure false

/-- The loop `for (let i = 0; i < branches.length - 1; i++)` with an
explicit iteration count, honouring `break`. -/
def loopAux (bs : List String) : Nat → Nat → M Unit
  | 0, _ => pure ()
  | fuel + 1, i => do
    let cont ← mergeStepM bs i
    if cont then loopAux bs fuel (i + 1) else pure ()

/-- The real merge loop of `syncStackedPRs` (lines 290-311). -/
def realMergeLoop (bs : List String) : M Unit := loopAux bs (bs.length - 1) 0

/-! ### Push phase (lines 349-436) -/

def pushAllBranchesM (bs : List String) : M Unit :=
  bs.forM fun b => do
    emit (.pushBranch b)
    let env ← getEnv
    if env.pushOk b then emit (.info "pushed") else emit (.info "push failed")

def pushBranchesOneByOneM (bs : List String) : M Unit :=
  bs.forM fun b => do
    let ans ← popAnswer
    if ans = "y" ∨ ans = "yes" then do
      emit (.pushBranch b)
      let env ← getEnv
      if env.pushOk b then emit (.info "pushed") else emit (.info "push failed")
    else emit (.info "skipping")

/-- `askToPushChanges(branches)`: the push menu over every branch except
the first; invalid input just skips. -/
def askToPushChangesM (bs : List String) : M Unit := do
  let branchesToPush := bs.drop 1
  emit .pushPrompt
  let ans ← popAnswer
  if ans = "1" then pushAllBranchesM branchesToPush
  else if ans = "2" then pushBranchesOneByOneM branchesToPush
  else if ans = "3" then emit (.info "skipping push")
  else emit (.info "invalid choice, skipping push")

/-! ### Preflight and the main orchestrator (lines 220-345) -/

/-- `handleUncommittedChanges()`: stash, report, return the marker;
a failed stash is fatal (`process.exit(1)`). -/
def handleUncommittedChangesM : M Bool := do
  emit (.info "uncommitted changes")
  let env ← getEnv
  if env.stashOk then do
    emit .stashed
    pure true
  else do
    emit (.info "stash failed")
    exitProc 1

/-- Step 2 of `syncStackedPRs` (lines 261-273): the out-of-sync menu is
offered only when some branch is out of sync and an origin remote exists;
otherwise an informational message is logged. -/
def remoteSyncPhase (outOfSyncBranches : List String) (originExists : Bool) : M Unit :=
  if outOfSyncBranches.length > 0 then
    if originExists then handleOutOfSyncBranchesM outOfSyncBranches
    else emit .noOriginInfo
  else
    if originExists then emit .allInSync
    else emit .noOriginInfo

/-- Step 3 of `syncStackedPRs` (lines 276-285): unless disabled by the
configuration, probe every adjacent pair and hand the result to
`handlePreDetectedConflicts`, whose return value line 281 discards. -/
def precheckPhase (bs : List String) : M Unit := do
  let shouldCheck ← shouldCheckConflictsM
  if shouldCheck then do
    let potentialConflicts ← checkAllPotentialConflictsM bs
    let _ ← handlePreDetectedConflictsM potentialConflicts
  else
    emit .skipConflictCheckWarn

/-- Step 5 of `syncStackedPRs` (lines 316-321): the push menu, guarded by
a second `checkOriginExists()` call. -/
def pushPhase (binding : OriginBinding) (bs : List String) : M Unit := do
  let pushOriginExists ← checkOriginExistsM binding
  if pushOriginExists then askToPushChangesM bs else emit .skipPushInfo

/-- Lines 323-327: return to the original branch when it is no longer
checked out. -/
def returnToOriginalPhase (originalBranch : String) : M Unit := do
  let cur ← getCurrentBranchM
  if originalBranch ≠ cur then do
    emit (.returningToOriginal originalBranch)
    switchToBranchRestoreM originalBranch
  else pure ()

/-- Lines 329-340: pop the preflight stash if one was taken; a failed pop
is a warning plus a manual-restore hint, not a fatal error. -/
def restoreStashPhase (stashed : Bool) : M Unit :=
  if stashed then do
    emit .restoringStash
    let env ← getEnv
    if env.stashPopOk then emit (.info "stash restored")
    else do
      emit .stashPopWarning
      emit .stashPopManualHint
  else pure ()

/-- Lines 243-249: determine cleanliness and stash when dirty, recording
whether a stash restore is owed at the end. -/
def preflightStash : M Bool := do
  let clean ← isWorkingDirectoryCleanM
  if clean then pure false else handleUncommittedChangesM

/-- The body of the `try` block of `syncStackedPRs` (lines 254-340): the
status report, the origin check, the out-of-sync menu, the conflict
pre-check, the real merge loop, the success report, the push phase, the
return to the original branch and the stash restore, in source order. -/
def syncBody (binding : OriginBinding) (bs : List String)
    (originalBranch : String) (stashed : Bool) : M Unit := do
  let report ← checkBranchStatusesM bs
  let originExists ← checkOriginExistsM binding
  remoteSyncPhase report.2 originExists
  precheckPhase bs
  emit (.info "syncing branches locally")
  realMergeLoop bs
  emit .successReport
  pushPhase binding bs
  returnToOriginalPhase originalBranch
  restoreStashPhase stashed

/-- `syncStackedPRs(branches)` (lines 237-345), line by line: repository
check, preflight stash, original-branch record, then the `try` body with
the catch `{ logError; process.exit(1) }`.  The binding parameter selects
what the `checkOriginExists` import resolved to. -/
def syncStackedPRs (binding : OriginBinding) (bs : List String) : M Unit := do
  let isRepo ← checkGitRepoM
  if !isRepo then do
    emit (.info "not a git repository")
    exitProc 1
  else do
    let stashed ← preflightStash
    let originalBranch ← getCurrentBranchM
    emit (.info "starting branch recorded")
    tryCatchJs (syncBody binding bs originalBranch stashed)
      (fun msg => do
        emit (.caughtError msg)
        exitProc 1)

/-- Initial world for one invocation. -/
def initW (env : Env) (answers : List String) : World :=
  ⟨env, env.initialBranch, answers, []⟩

/-- Run the orchestrator from a fresh world. -/
def runSync (binding : OriginBinding) (env : Env) (answers : List String)
    (bs : List String) : Res Unit × World :=
  syncStackedPRs binding bs (initW env answers)

/-- The exit code when the run ended in `process.exit`. -/
def resCode (p : Res α × World) : Option Nat :=
  match p.1 with
  | .exit c => some c
  | _ => none

/-- Whether the run returned normally. -/
def resOk (p : Res α × World) : Bool :=
  match p.1 with
  | .ok _ => true
  | _ => false

/-- The event log at the end of the run. -/
def resEvents (p : Res α × World) : List Ev := p.2.events

/-- The thrown JS message when the run ended in an uncaught exception. -/
def resJsMsg (p : Res α × World) : Option String :=
  match p.1 with
  | .js m => some m
  | _ => none

/-- Recognise real-merge events in a log. -/
def Ev.isMergeAttempt : Ev → Bool
  | .mergeAttempt _ _ => true
  | _ => false

/-- Recognise push events in a log. -/
def Ev.isPushBranch : Ev → Bool
  | .pushBranch _ => true
  | _ => false

/-- The probe leaves the repository observably unchanged: same checked
out branch, same branch list, no merge in progress, and unchanged tips of
all existing branches (only the deleted disposable name may carry a stale
tip). -/
def probeAgrees (r0 r : Repo) : Prop :=
  r.head = r0.head ∧ r.branches = r0.branches ∧ r.mip = false ∧ r.conflicted = false ∧
  (∀ b ∈ r0.branches, r.tip b = r0.tip b) ∧ r.mergeOutcome = r0.mergeOutcome

/-- Events the real merge loop can emit. -/
def loopEv (e : Ev) : Prop :=
  (∃ i, e = .mergeStep i) ∨ (∃ i s, e = .mergeAttempt i s) ∨
  (∃ s t, e = .mergeFailedNonConflict s t) ∨ (∃ s t, e = .conflictsDetected s t) ∨
  e = .restartInstructions

/-- Recognise the out-of-sync menu prompt and the push-phase events. -/
def Ev.isPromptish : Ev → Bool
  | .syncPrompt => true
  | .pushPrompt => true
  | .pushBranch _ => true
  | _ => false

/-- Events that are neither the out-of-sync menu nor any part of the push
phase. -/
def nonPromptEv (e : Ev) : Prop := e.isPromptish = false

/-- A Hoare-style frame predicate for orchestrator computations: from any
world whose environment satisfies `Q`, the computation preserves the
environment, only adds events satisfying `P`, and returns (normally) only
values satisfying `V`. -/
def FrameV (Q : Env → Prop) (P : Ev → Prop) (V : α → Prop) (x : M α) : Prop :=
  ∀ w, Q w.env →
    ((x w).2.env = w.env ∧ ∀ e ∈ (x w).2.events, e ∈ w.events ∨ P e) ∧
    (∀ a w2, x w = (.ok a, w2) → V a)

/-- A baseline environment for concrete runs: a clean local-only
repository on branch `main` where every command succeeds, every branch
reports `no-remote`, no configuration file exists, and all probes and
merges are clean. -/
def envBase : Env :=
  { inGitRepo := true, statusQueryOk := true, dirty := false, stashOk := true,
    curBranchOk := true, initialBranch := "main",
    q := fun _ => ⟨true, false, true, 0, 0⟩,
    originExists := false, config := none,
    probeConflict := fun _ => false,
    switchOk := fun _ => true, mergeOk := fun _ => true, conflictAfter := fun _ => false,
    coOk := fun _ => true, pullOk := fun _ => true, pushOk := fun _ => true,
    restoreSwitchOk := true, stashPopOk := true }

/-- A `loadConfig` result that disables the pre-conflict check. -/
def disableCfg : ConfigJ := ⟨some ⟨some false⟩⟩

/-- A baseline concrete repository for probe runs: three branches, merges
of the `f1` tip while the `f2` tip is checked out conflict, everything
else merges cleanly. -/
def repoBase : Repo :=
  { head := "main", branches := ["main", "f1", "f2"],
    tip := fun b => if b = "f1" then 1 else if b = "f2" then 2 else 0,
    mergeOutcome := fun x y => if x = 1 ∧ y = 2 then .conflict else .clean,
    mip := false, conflicted := false }

/-- The conflict flag the probe computes for each content outcome of the
trial merge: true exactly for a conflicted merge, whose unmerged-path
markers the status query reports. -/
def probeFlagOf : MergeOutcome → Bool
  | .conflict => true
  | _ => false

/-- The diagnostic recorded by the probe for each content outcome of the
trial merge, as computed by `performDryRunMerge`: a clean trial merge
reports no error; a conflicted one reports the merge failure; an
already-up-to-date or not-started merge makes the subsequent
`git merge --abort` fail, which the outer catch reports. -/
def probeErrOf : MergeOutcome → Option String
  | .clean => none
  | .upToDate => some "merge abort failed"
  | .conflict => some "merge failed"
  | .failNoStart => some "merge abort failed"
/-- Concrete environment where every real merge fails and leaves conflict
markers: exercises the conflict path of the real merge loop. -/
def envConflict : Env :=
  { envBase with mergeOk := fun _ => false, conflictAfter := fun _ => true }

/-- Concrete environment with a dirty working tree whose final
`git stash pop` fails: exercises the stash-restore warning path. -/
def envDirtyPopFail : Env :=
  { envBase with dirty := true, stashPopOk := false }

/-- Concrete environment where every real merge fails without leaving
conflict markers, with the pre-merge conflict check disabled in config:
exercises the non-conflict merge-failure break. -/
def envMergeFailNoConflict : Env :=
  { envBase with mergeOk := fun _ => false, config := some disableCfg }

/-- Concrete environment where the branch "ghost" exists in no ref query
(git show-ref fails for it) while every other branch exists locally. -/
def envGhost : Env :=
  { envBase with q := fun b =>
      if b = "ghost" then ⟨false, false, false, 0, 0⟩
      else ⟨true, false, true, 0, 0⟩ }

theorem performDryRunMerge_eq (now : Nat) (src tgt : String) (r : Repo)
    (hsrc : src ∈ r.branches) (htgt : tgt ∈ r.branches) (hhead : r.head ∈ r.branches)
    (hmip : r.mip = false) (hconf : r.conflicted = false)
    (htemp : tempName now ∉ r.branches) :
    performDryRunMerge now src tgt r =
      (⟨probeFlagOf (r.mergeOutcome (r.tip src) (r.tip tgt)),
        probeErrOf (r.mergeOutcome (r.tip src) (r.tip tgt))⟩,
       { r with tip := fun b => if b = tempName now then r.tip tgt else r.tip b }) := by
  have hheadne : r.head ≠ tempName now := fun h => htemp (h ▸ hhead)
  have hsrcne : src ≠ tempName now := fun h => htemp (h ▸ hsrc)
  unfold performDryRunMerge gitCheckoutNewBranch gitMergeNoCommit gitStatusHasMarkers
    gitMergeAbort probeCleanup gitCheckout gitBranchDelete
  simp only [htgt, htemp, hconf, not_false_iff, and_self, if_true, ite_true, and_true,
    true_and, List.mem_cons, hsrc, or_true]
  rw [if_neg hsrcne]
  rcases hmo : r.mergeOutcome (r.tip src) (r.tip tgt) with _ | _ | _ | _ <;>
    simp only [hmo, hmip, hconf, hhead, List.mem_cons, or_true, true_or, and_self,
      if_true, if_false, Bool.false_eq_true, ite_false, ite_true, and_true, true_and,
      ne_eq, hheadne, not_false_iff, List.erase_cons_head, probeFlagOf, probeErrOf]

theorem probeFlagOf_eq_true (o : MergeOutcome) : probeFlagOf o = true ↔ o = .conflict := by
  cases o <;> simp [probeFlagOf]

/-- C3: On every exit path of performDryRunMerge, under sane preconditions
(current branch exists, no merge in progress, no leftover markers, fresh
temporary name), the probe aborts the trial merge, deletes the disposable
temporary branch and checks the original branch back out: head, branch
list, merge-in-progress flag and conflict markers are all restored. -/
theorem c3_probe_cleanup_on_all_paths (now : Nat) (src tgt : String) (r : Repo)
    (hhead : r.head ∈ r.branches) (hmip : r.mip = false) (hconf : r.conflicted = false)
    (htemp : tempName now ∉ r.branches) :
    (performDryRunMerge now src tgt r).2.head = r.head ∧
    (performDryRunMerge now src tgt r).2.branches = r.branches ∧
    (performDryRunMerge now src tgt r).2.mip = false ∧
    (performDryRunMerge now src tgt r).2.conflicted = false ∧
    tempName now ∉ (performDryRunMerge now src tgt r).2.branches := by
  have hheadne : r.head ≠ tempName now := fun h => htemp (h ▸ hhead)
  unfold performDryRunMerge gitCheckoutNewBranch gitMergeNoCommit gitStatusHasMarkers
    gitMergeAbort probeCleanup gitCheckout gitBranchDelete
  by_cases htgt : tgt ∈ r.branches
  · simp only [htgt, htemp, hconf, not_false_iff, and_self, ite_true, and_true, true_and,
      List.mem_cons, if_true]
    by_cases hsrc : src = tempName now ∨ src ∈ r.branches
    · simp only [hsrc, if_true, ite_true]
      rcases hmo : r.mergeOutcome (if src = tempName now then r.tip tgt else r.tip src) (r.tip tgt)
        with _ | _ | _ | _ <;>
        simp_all [hmip, hconf, hhead, hheadne, Ne.symm hheadne, List.erase_cons_head]
    · simp only [hsrc, if_false, ite_false]
      simp_all [hmip, hconf, hhead, hheadne, Ne.symm hheadne, List.erase_cons_head]
  · simp only [htgt, false_and, if_false, ite_false]
    simp_all [hhead, htemp]

theorem checkAllRepoAux_eq (nows : Nat → Nat) (bs : List String) (r : Repo)
    (hhead : r.head ∈ r.branches) (_hmip : r.mip = false) (_hconf : r.conflicted = false)
    (hfresh : ∀ j, tempName (nows j) ∉ r.branches) :
    ∀ (js : List Nat) (r1 : Repo), probeAgrees r r1 →
      (∀ j ∈ js, bs.getD j "" ∈ r.branches ∧ bs.getD (j + 1) "" ∈ r.branches) →
      (checkAllRepoAux nows bs js r1).1 =
        js.filterMap (fun j =>
          if probeFlagOf (r.mergeOutcome (r.tip (bs.getD j "")) (r.tip (bs.getD (j + 1) ""))) then
            some ⟨bs.getD j "", bs.getD (j + 1) "", some "merge failed"⟩
          else none) := by
  intro js
  induction js with
  | nil => intro r1 _ _; rfl
  | cons j rest ih =>
    intro r1 hag hmem
    obtain ⟨hh, hb, hm, hc, ht, hmo⟩ := hag
    obtain ⟨hsj, htj⟩ := hmem j (List.mem_cons_self j rest)
    have hsj1 : bs.getD j "" ∈ r1.branches := hb ▸ hsj
    have htj1 : bs.getD (j + 1) "" ∈ r1.branches := hb ▸ htj
    have hhead1 : r1.head ∈ r1.branches := by rw [hh, hb]; exact hhead
    have hfresh1 : tempName (nows j) ∉ r1.branches := hb ▸ hfresh j
    have heq := performDryRunMerge_eq (nows j) (bs.getD j "") (bs.getD (j + 1) "") r1
      hsj1 htj1 hhead1 hm hc hfresh1
    have htips : r1.mergeOutcome (r1.tip (bs.getD j "")) (r1.tip (bs.getD (j + 1) "")) =
        r.mergeOutcome (r.tip (bs.getD j "")) (r.tip (bs.getD (j + 1) "")) := by
      rw [hmo, ht _ hsj, ht _ htj]
    have hag2 : probeAgrees r (performDryRunMerge (nows j) (bs.getD j "") (bs.getD (j + 1) "") r1).2 := by
      rw [heq]
      refine ⟨hh, hb, hm, hc, ?_, hmo⟩
      intro b hbmem
      have hbne : b ≠ tempName (nows j) := fun h => hfresh j (h ▸ hbmem)
      simp only [if_neg hbne]
      exact ht b hbmem
    have hrest := ih _ hag2 (fun x hx => hmem x (List.mem_cons_of_mem _ hx))
    rw [heq] at hrest
    simp only [checkAllRepoAux, heq, htips, hrest, List.filterMap_cons]
    rcases hmo2 : r.mergeOutcome (r.tip (bs.getD j "")) (r.tip (bs.getD (j + 1) "")) with _ | _ | _ | _ <;>
      simp [probeFlagOf, probeErrOf, hmo2]

theorem checkBranchStatusesAux_fst (env : Env) (bs : List String) :
    (checkBranchStatusesAux env bs).1 = bs.map fun b => getBranchStatus (env.q b) b := by
  induction bs with
  | nil => rfl
  | cons b rest ih => simp [checkBranchStatusesAux, ih]

/-- C9: a branch whose individual status query fails (git show-ref fails) is
reported as not-found with localExists, remoteExists and isInSync all
false, and the status report still contains one entry for every branch of
the stack: an individual query failure never aborts the whole report. -/
theorem c9_query_failure_degrades_to_not_found (env : Env) (bs : List String) (b : String)
    (hb : b ∈ bs) (hq : (env.q b).showRefOk = false) :
    getBranchStatus (env.q b) b = ⟨b, false, false, false, "not-found"⟩ ∧
    (checkBranchStatusesAux env bs).1 = (bs.map fun x => getBranchStatus (env.q x) x) ∧
    (checkBranchStatusesAux env bs).1.length = bs.length ∧
    (⟨b, false, false, false, "not-found"⟩ : BranchStatusR) ∈ (checkBranchStatusesAux env bs).1 := by
  have h1 : getBranchStatus (env.q b) b = ⟨b, false, false, false, "not-found"⟩ := by
    unfold getBranchStatus; rw [hq]; simp
  refine ⟨h1, checkBranchStatusesAux_fst env bs, ?_, ?_⟩
  · rw [checkBranchStatusesAux_fst]; simp
  · rw [checkBranchStatusesAux_fst]
    exact h1 ▸ List.mem_map_of_mem _ hb

/-- C4: For every branch list of length at least 2 and every adjacent pair
(i, i+1), the probe reports hasConflicts = true iff the trial no-commit
merge of branch i into a disposable branch created from branch i+1 leaves
unmerged-path markers; the whole pre-check output is exactly the list of
marker-leaving adjacent pairs. -/
theorem c4_probe_reports_conflict_iff_markers (nows : Nat → Nat) (bs : List String) (r : Repo) (i : Nat)
    (hlen : 2 ≤ bs.length) (hi : i + 1 < bs.length)
    (hbs : ∀ b ∈ bs, b ∈ r.branches) (hhead : r.head ∈ r.branches)
    (hmip : r.mip = false) (hconf : r.conflicted = false)
    (hfresh : ∀ j, tempName (nows j) ∉ r.branches) :
    ((performDryRunMerge (nows i) (bs.getD i "") (bs.getD (i + 1) "") r).1.hasConflicts = true ↔
      trialMergeLeavesMarkers r (bs.getD i "") (bs.getD (i + 1) "")) ∧
    (checkAllPotentialConflictsRepo nows bs r).1 =
      (List.range (bs.length - 1)).filterMap (fun j =>
        if trialMergeLeavesMarkers r (bs.getD j "") (bs.getD (j + 1) "") then
          some ⟨bs.getD j "", bs.getD (j + 1) "", some "merge failed"⟩
        else none) := by
  have hget : ∀ j : Nat, j < bs.length → bs.getD j "" ∈ r.branches := by
    intro j hj
    apply hbs
    rw [List.getD_eq_getElem?_getD, List.getElem?_eq_getElem hj]
    exact List.getElem_mem hj
  constructor
  · rw [performDryRunMerge_eq (nows i) _ _ r (hget i (Nat.lt_of_succ_lt hi)) (hget _ hi)
      hhead hmip hconf (hfresh i)]
    simp only [probeFlagOf_eq_true]
    exact Iff.rfl
  · rw [checkAllPotentialConflictsRepo,
      checkAllRepoAux_eq nows bs r hhead hmip hconf hfresh (List.range (bs.length - 1)) r
        ⟨rfl, rfl, hmip, hconf, fun _ _ => rfl, rfl⟩ ?mem]
    case mem =>
      intro j hj
      rw [List.mem_range] at hj
      exact ⟨hget j (Nat.lt_of_lt_of_le hj (Nat.sub_le _ _)),
        hget (j + 1) (by omega)⟩
    apply List.filterMap_congr
    intro j _
    rcases hmo : r.mergeOutcome (r.tip (bs.getD j "")) (r.tip (bs.getD (j + 1) "")) with _ | _ | _ | _ <;>
      simp [probeFlagOf, trialMergeLeavesMarkers, ← List.getD_eq_getElem?_getD, hmo]

/-- C10: when the probe errors before a conflict can be classified — here the
target branch does not exist, so the disposable-branch checkout fails —
performDryRunMerge returns hasConflicts = false together with an error
message, the pair is excluded from the pre-check conflict list, and the
pre-check handler lets the run continue. -/
theorem c10_probe_error_treated_as_no_conflict (now : Nat) (nows : Nat → Nat) (src tgt : String) (r : Repo) (w : World)
    (htgt : tgt ∉ r.branches) :
    (performDryRunMerge now src tgt r).1 = ⟨false, some "checkout -b failed"⟩ ∧
    (checkAllPotentialConflictsRepo nows [src, tgt] r).1 = [] ∧
    handlePreDetectedConflictsM [] w = (.ok true, { w with events := .noPreConflicts :: w.events }) := by
  have hp : ∀ n, (performDryRunMerge n src tgt r).1 = ⟨false, some "checkout -b failed"⟩ := by
    intro n
    unfold performDryRunMerge gitCheckoutNewBranch
    simp [htgt]
  refine ⟨hp now, ?_, rfl⟩
  show (checkAllRepoAux nows [src, tgt] (List.range 1) r).1 = []
  have : List.range 1 = [0] := rfl
  simp only [this, checkAllRepoAux]
  simp [hp (nows 0)]

theorem bind_eq (x : M α) (f : α → M β) : x >>= f = Mbind x f := rfl

theorem pure_eq (a : α) : (pure a : M α) = Mpure a := rfl

theorem loopAux_conflict (env : Env) (bs : List String) (i : Nat)
    (hsw : env.switchOk i = true) (hmg : env.mergeOk i = false)
    (hca : env.conflictAfter i = true) :
    ∀ (fuel k : Nat) (w : World), w.env = env →
      k ≤ i → i < k + fuel →
      (∀ j, k ≤ j → j < i → env.switchOk j = true ∧ env.mergeOk j = true) →
      ∃ evs, loopAux bs fuel k w =
          (.exit 1, { w with head := bs.getD (i + 1) "", events := evs ++ w.events }) ∧
        Ev.restartInstructions ∈ evs ∧
        Ev.conflictsDetected (bs.getD i "") (bs.getD (i + 1) "") ∈ evs ∧
        (∀ j s, Ev.mergeAttempt j s ∈ evs → k ≤ j ∧ j ≤ i) := by
  intro fuel
  induction fuel with
  | zero => intro k w _ hki hik _; omega
  | succ fuel ih =>
    intro k w hwenv hki hik hpre
    rcases w with ⟨we, wh, wa, wev⟩
    simp only at hwenv
    subst hwenv
    rcases Nat.eq_or_lt_of_le hki with heq | hlt
    · subst heq
      refine ⟨[.restartInstructions, .conflictsDetected (bs.getD k "") (bs.getD (k + 1) ""),
        .mergeAttempt k (bs.getD k ""), .mergeStep k], ?_, by simp, by simp, ?_⟩
      · simp only [loopAux, mergeStepM, switchToBranchM, mergeFromBranchM, hasConflictsM,
          handleConflictsM, emit, setHead, getEnv, bind_eq, pure_eq, Mbind, Mpure, exitProc,
          hsw, hmg, hca, if_true, ite_true, Bool.false_eq_true, if_false, ite_false]
        rfl
      · intro j s hmem
        simp only [List.mem_cons, List.not_mem_nil, or_false, Ev.mergeAttempt.injEq] at hmem
        rcases hmem with h | h | ⟨h, _⟩ | h
        · exact absurd h (by simp)
        · exact absurd h (by simp)
        · omega
        · exact absurd h (by simp)
    · obtain ⟨hswk, hmgk⟩ := hpre k le_rfl hlt
      obtain ⟨evs, hrun, h1, h2, h3⟩ := ih (k + 1)
        ⟨we, bs.getD (k + 1) "", wa, .mergeAttempt k (bs.getD k "") :: .mergeStep k :: wev⟩
        rfl hlt (by omega) (fun j hj1 hj2 => hpre j (Nat.le_of_succ_le hj1) hj2)
      refine ⟨evs ++ [.mergeAttempt k (bs.getD k ""), .mergeStep k], ?_,
        List.mem_append_left _ h1, List.mem_append_left _ h2, ?_⟩
      · simp only [loopAux, mergeStepM, switchToBranchM, mergeFromBranchM, hasConflictsM,
          handleConflictsM, emit, setHead, getEnv, bind_eq, pure_eq, Mbind, Mpure, exitProc,
          hswk, hmgk, if_true, ite_true]
        rw [hrun]
        simp
      · intro j s hmem
        rcases List.mem_append.mp hmem with h | h
        · have := h3 j s h
          omega
        · simp only [List.mem_cons, List.not_mem_nil, or_false, Ev.mergeAttempt.injEq] at h
          rcases h with ⟨h, _⟩ | h
          · omega
          · exact absurd h (by simp)

theorem frameV_weaken {Q : Env → Prop} {P1 P2 : Ev → Prop} {V1 V2 : α → Prop} {x : M α}
    (hP : ∀ e, P1 e → P2 e) (hV : ∀ a, V1 a → V2 a) (h : FrameV Q P1 V1 x) :
    FrameV Q P2 V2 x := by
  intro w hq
  obtain ⟨⟨henv, hev⟩, hval⟩ := h w hq
  exact ⟨⟨henv, fun e he => (hev e he).imp id (hP e)⟩, fun a w2 hr => hV a (hval a w2 hr)⟩

theorem frameV_pure {Q : Env → Prop} {P : Ev → Prop} {V : α → Prop} {a : α} (h : V a) :
    FrameV Q P V (pure a : M α) := by
  intro w hq
  exact ⟨⟨rfl, fun e he => .inl he⟩, fun b w2 hr => by
    cases hr
    exact h⟩

theorem bind_run (x : M α) (f : α → M β) (w : World) :
    (x >>= f) w =
      match x w with
      | (.ok a, w1) => f a w1
      | (.exit c, w1) => (.exit c, w1)
      | (.js m, w1) => (.js m, w1) := rfl

theorem frameV_bind {Q : Env → Prop} {P : Ev → Prop} {V1 : α → Prop} {V2 : β → Prop}
    {x : M α} {f : α → M β} (hx : FrameV Q P V1 x)
    (hf : ∀ a, V1 a → FrameV Q P V2 (f a)) : FrameV Q P V2 (x >>= f) := by
  intro w hq
  obtain ⟨⟨henv, hev⟩, hval⟩ := hx w hq
  rcases hxw : x w with ⟨res, w1⟩
  rw [hxw] at henv hev
  rcases res with a | c | m
  · have hq1 : Q w1.env := henv ▸ hq
    obtain ⟨⟨henv2, hev2⟩, hval2⟩ := hf a (hval a w1 hxw) w1 hq1
    refine ⟨⟨?_, ?_⟩, ?_⟩
    · simp only [bind_run, hxw]
      rw [henv2, henv]
    · intro e he
      simp only [bind_run, hxw] at he
      rcases hev2 e he with h1 | h1
      · exact (hev e h1).imp id id
      · exact .inr h1
    · intro b w2 hr
      simp only [bind_run, hxw] at hr
      exact hval2 b w2 hr
  · refine ⟨⟨?_, ?_⟩, fun b w2 hr => ?_⟩
    · simp only [bind_run, hxw]
      exact henv
    · intro e he
      simp only [bind_run, hxw] at he
      exact hev e he
    · simp only [bind_run, hxw] at hr
      cases hr
  · refine ⟨⟨?_, ?_⟩, fun b w2 hr => ?_⟩
    · simp only [bind_run, hxw]
      exact henv
    · intro e he
      simp only [bind_run, hxw] at he
      exact hev e he
    · simp only [bind_run, hxw] at hr
      cases hr

theorem frameV_ite {Q : Env → Prop} {P : Ev → Prop} {V : α → Prop} {c : Prop} [Decidable c]
    {x y : M α} (hx : c → FrameV Q P V x) (hy : ¬c → FrameV Q P V y) :
    FrameV Q P V (if c then x else y) := by
  by_cases hc : c
  · rw [if_pos hc]; exact hx hc
  · rw [if_neg hc]; exact hy hc

theorem frameV_emit {Q : Env → Prop} {P : Ev → Prop} {e : Ev} (h : P e) :
    FrameV Q P (fun _ => True) (emit e) := by
  intro w _
  refine ⟨⟨rfl, fun e2 he2 => ?_⟩, fun a w2 _ => trivial⟩
  rcases List.mem_cons.mp he2 with h1 | h1
  · exact .inr (h1 ▸ h)
  · exact .inl h1

theorem frameV_emitAll {Q : Env → Prop} {P : Ev → Prop} {evs : List Ev}
    (h : ∀ e ∈ evs, P e) : FrameV Q P (fun _ => True) (emitAll evs) := by
  intro w _
  refine ⟨⟨rfl, fun e2 he2 => ?_⟩, fun a w2 _ => trivial⟩
  rcases List.mem_append.mp he2 with h1 | h1
  · exact .inr (h e2 h1)
  · exact .inl h1

theorem frameV_getEnv {Q : Env → Prop} {P : Ev → Prop} : FrameV Q P Q getEnv := by
  intro w hq
  exact ⟨⟨rfl, fun e he => .inl he⟩, fun a w2 hr => by cases hr; exact hq⟩

theorem frameV_getHead {Q : Env → Prop} {P : Ev → Prop} :
    FrameV Q P (fun _ => True) getHead := by
  intro w _
  exact ⟨⟨rfl, fun e he => .inl he⟩, fun a w2 _ => trivial⟩

theorem frameV_setHead {Q : Env → Prop} {P : Ev → Prop} {b : String} :
    FrameV Q P (fun _ => True) (setHead b) := by
  intro w _
  exact ⟨⟨rfl, fun e he => .inl he⟩, fun a w2 _ => trivial⟩

theorem frameV_popAnswer {Q : Env → Prop} {P : Ev → Prop} :
    FrameV Q P (fun _ => True) popAnswer := by
  intro w _
  refine ⟨⟨?_, ?_⟩, fun a w2 _ => trivial⟩ <;> unfold popAnswer <;>
    rcases w with ⟨we, wh, wa, wev⟩ <;> cases wa <;>
    simp <;> exact fun e he => .inl he

theorem frameV_throwJs {Q : Env → Prop} {P : Ev → Prop} {V : α → Prop} {msg : String} :
    FrameV Q P V (throwJs msg) := by
  intro w _
  exact ⟨⟨rfl, fun e he => .inl he⟩, fun a w2 hr => by cases hr⟩

theorem frameV_exitProc {Q : Env → Prop} {P : Ev → Prop} {V : α → Prop} {c : Nat} :
    FrameV Q P V (exitProc c) := by
  intro w _
  exact ⟨⟨rfl, fun e he => .inl he⟩, fun a w2 hr => by cases hr⟩

theorem frameV_tryCatch {Q : Env → Prop} {P : Ev → Prop} {V : α → Prop} {x : M α}
    {h : String → M α} (hx : FrameV Q P V x) (hh : ∀ m, FrameV Q P V (h m)) :
    FrameV Q P V (tryCatchJs x h) := by
  intro w hq
  obtain ⟨⟨henv, hev⟩, hval⟩ := hx w hq
  rcases hxw : x w with ⟨res, w1⟩
  rw [hxw] at henv hev
  rcases res with a | c | m
  · have hrun : tryCatchJs x h w = (Res.ok a, w1) := by
      unfold tryCatchJs
      rw [hxw]
    refine ⟨⟨by rw [hrun]; exact henv, by rw [hrun]; exact hev⟩, fun b w2 hr => ?_⟩
    rw [hrun] at hr
    injection hr with h1 h2
    injection h1 with h1
    exact hval b w2 (h1 ▸ h2 ▸ hxw)
  · have hrun : tryCatchJs x h w = (Res.exit c, w1) := by
      unfold tryCatchJs
      rw [hxw]
    refine ⟨⟨by rw [hrun]; exact henv, by rw [hrun]; exact hev⟩, fun b w2 hr => ?_⟩
    rw [hrun] at hr
    cases hr
  · have hrun : tryCatchJs x h w = h m w1 := by
      unfold tryCatchJs
      rw [hxw]
    have hq1 : Q w1.env := henv ▸ hq
    obtain ⟨⟨henv2, hev2⟩, hval2⟩ := hh m w1 hq1
    refine ⟨⟨by rw [hrun, henv2]; exact henv, ?_⟩, fun b w2 hr => ?_⟩
    · rw [hrun]
      intro e he
      rcases hev2 e he with h1 | h1
      · exact (hev e h1).imp id id
      · exact .inr h1
    · rw [hrun] at hr
      exact hval2 b w2 hr

theorem frameV_emitNP {Q : Env → Prop} {e : Ev} (h : nonPromptEv e) :
    FrameV Q nonPromptEv (fun _ => True) (emit e) := frameV_emit h

theorem frameV_pureT {Q : Env → Prop} {P : Ev → Prop} {a : α} :
    FrameV Q P (fun _ => True) (pure a : M α) := frameV_pure trivial

theorem frameV_throwJsT {Q : Env → Prop} {P : Ev → Prop} {msg : String} :
    FrameV Q P (fun _ => True) (throwJs msg : M α) := frameV_throwJs

theorem frameV_exitProcT {Q : Env → Prop} {P : Ev → Prop} {c : Nat} :
    FrameV Q P (fun _ => True) (exitProc c : M α) := frameV_exitProc

theorem checkBranchStatusesAux_events (env : Env) (bs : List String) :
    ∀ e ∈ (checkBranchStatusesAux env bs).2.2, ∃ b s, e = Ev.statusLine b s := by
  induction bs with
  | nil => intro e he; cases he
  | cons b rest ih =>
    intro e he
    rcases List.mem_cons.mp he with h | h
    · exact ⟨b, _, h⟩
    · exact ih e h

theorem frameV_checkGitRepoM {Q : Env → Prop} {P : Ev → Prop} :
    FrameV Q P (fun _ => True) checkGitRepoM := by
  intro w _
  exact ⟨⟨rfl, fun e he => .inl he⟩, fun a w2 _ => trivial⟩

theorem frameV_isClean {Q : Env → Prop} {P : Ev → Prop} :
    FrameV Q P (fun _ => True) isWorkingDirectoryCleanM := by
  unfold isWorkingDirectoryCleanM
  apply frameV_bind frameV_getEnv
  intro env _
  exact frameV_ite (fun _ => frameV_pureT) (fun _ => frameV_throwJs)

theorem frameV_getCurrentBranch {Q : Env → Prop} {P : Ev → Prop} :
    FrameV Q P (fun _ => True) getCurrentBranchM := by
  unfold getCurrentBranchM
  apply frameV_bind frameV_getEnv
  intro env _
  exact frameV_ite (fun _ => frameV_getHead) (fun _ => frameV_throwJs)

theorem frameV_handleUncommitted {Q : Env → Prop} :
    FrameV Q nonPromptEv (fun _ => True) handleUncommittedChangesM := by
  unfold handleUncommittedChangesM
  refine frameV_bind (frameV_emitNP rfl) fun _ _ => ?_
  apply frameV_bind frameV_getEnv
  intro env _
  refine frameV_ite (fun _ => ?_) (fun _ => ?_)
  · exact frameV_bind (frameV_emitNP rfl) fun _ _ => frameV_pureT
  · exact frameV_bind (frameV_emitNP rfl) fun _ _ => frameV_exitProc

theorem frameV_checkBranchStatuses {Q : Env → Prop} {bs : List String} :
    FrameV Q nonPromptEv (fun _ => True) (checkBranchStatusesM bs) := by
  unfold checkBranchStatusesM
  apply frameV_bind frameV_getEnv
  intro env _
  refine frameV_bind (frameV_emitAll ?_) fun _ _ => frameV_pureT
  intro e he
  obtain ⟨b, s, hbs⟩ := checkBranchStatusesAux_events env bs e he
  subst hbs
  rfl

theorem frameV_checkOriginFalse {P : Ev → Prop} :
    FrameV (fun env => env.originExists = false) P (fun a => a = false)
      (checkOriginExistsM .provided) := by
  intro w hq
  refine ⟨⟨rfl, fun e he => .inl he⟩, fun a w2 hr => ?_⟩
  have : checkOriginExistsM .provided w = (.ok w.env.originExists, w) := rfl
  rw [this] at hr
  injection hr with h1 _
  injection h1 with h1
  rw [← h1, hq]

theorem frameV_shouldCheck {Q : Env → Prop} {P : Ev → Prop} :
    FrameV Q P (fun _ => True) shouldCheckConflictsM := by
  unfold shouldCheckConflictsM
  refine frameV_bind frameV_getEnv fun env _ => ?_
  split
  · exact frameV_pureT
  · split
    · exact frameV_pureT
    · split
      · exact frameV_throwJsT
      · exact frameV_pureT

theorem frameV_probeAux {Q : Env → Prop} {bs : List String} :
    ∀ fuel j, FrameV Q nonPromptEv (fun _ => True) (probeAux bs fuel j) := by
  intro fuel
  induction fuel with
  | zero => intro j; exact frameV_pureT
  | succ fuel ih =>
    intro j
    unfold probeAux
    refine frameV_bind (frameV_emitNP rfl) fun _ _ => ?_
    refine frameV_bind frameV_getEnv fun env _ => ?_
    refine frameV_ite (fun _ => ?_) (fun _ => ih (j + 1))
    exact frameV_bind (ih (j + 1)) fun rest _ => frameV_pureT

theorem frameV_forM_pairs {Q : Env → Prop} {cs : List ConflictEntry} :
    FrameV Q nonPromptEv (fun _ => True)
      (cs.forM fun c => emit (.preConflictPair c.source c.target)) := by
  induction cs with
  | nil => exact frameV_pureT
  | cons c rest ih =>
    show FrameV _ _ _ (emit (.preConflictPair c.source c.target) >>= fun _ => _)
    refine frameV_bind (frameV_emitNP rfl) fun _ _ => ih

theorem frameV_handlePre {Q : Env → Prop} {cs : List ConflictEntry} :
    FrameV Q nonPromptEv (fun _ => True) (handlePreDetectedConflictsM cs) := by
  unfold handlePreDetectedConflictsM
  refine frameV_ite (fun _ => ?_) (fun _ => ?_)
  · exact frameV_bind (frameV_emitNP rfl) fun _ _ => frameV_pureT
  · refine frameV_bind (frameV_emitNP rfl) fun _ _ => ?_
    exact frameV_bind frameV_forM_pairs fun _ _ => frameV_throwJsT

theorem frameV_switchToBranch {Q : Env → Prop} {P : Ev → Prop} {i : Nat} {b : String} :
    FrameV Q P (fun _ => True) (switchToBranchM i b) := by
  unfold switchToBranchM
  apply frameV_bind frameV_getEnv
  intro env _
  exact frameV_ite (fun _ => frameV_setHead) (fun _ => frameV_throwJs)

theorem frameV_mergeFrom {Q : Env → Prop} {i : Nat} {src : String} :
    FrameV Q nonPromptEv (fun _ => True) (mergeFromBranchM i src) := by
  unfold mergeFromBranchM
  refine frameV_bind (frameV_emitNP rfl) fun _ _ => ?_
  apply frameV_bind frameV_getEnv
  intro env _
  exact frameV_pureT

theorem frameV_hasConflicts {Q : Env → Prop} {P : Ev → Prop} {i : Nat} :
    FrameV Q P (fun _ => True) (hasConflictsM i) := by
  unfold hasConflictsM
  exact frameV_bind frameV_getEnv fun env _ => frameV_pureT

theorem frameV_handleConflicts {Q : Env → Prop} {s t : String} :
    FrameV Q nonPromptEv (fun _ => (True : Prop)) (handleConflictsM s t : M Bool) := by
  unfold handleConflictsM
  refine frameV_bind (frameV_emitNP rfl) fun _ _ => ?_
  exact frameV_bind (frameV_emitNP rfl) fun _ _ => frameV_exitProcT

theorem frameV_mergeStep {Q : Env → Prop} {bs : List String} {i : Nat} :
    FrameV Q nonPromptEv (fun _ => True) (mergeStepM bs i) := by
  unfold mergeStepM
  refine frameV_bind (frameV_emitNP rfl) fun _ _ => ?_
  refine frameV_bind frameV_switchToBranch fun _ _ => ?_
  refine frameV_bind frameV_mergeFrom fun ms _ => ?_
  refine frameV_ite (fun _ => frameV_pureT) (fun _ => ?_)
  refine frameV_bind frameV_hasConflicts fun conf _ => ?_
  refine frameV_ite (fun _ => frameV_handleConflicts) (fun _ => ?_)
  exact frameV_bind (frameV_emitNP rfl) fun _ _ => frameV_pureT

theorem frameV_loopAux {Q : Env → Prop} {bs : List String} :
    ∀ fuel k, FrameV Q nonPromptEv (fun _ => True) (loopAux bs fuel k) := by
  intro fuel
  induction fuel with
  | zero => intro k; exact frameV_pureT
  | succ fuel ih =>
    intro k
    unfold loopAux
    refine frameV_bind frameV_mergeStep fun cont _ => ?_
    exact frameV_ite (fun _ => ih (k + 1)) (fun _ => frameV_pureT)

theorem frameV_restoreSwitch {Q : Env → Prop} {P : Ev → Prop} {b : String} :
    FrameV Q P (fun _ => True) (switchToBranchRestoreM b) := by
  unfold switchToBranchRestoreM
  apply frameV_bind frameV_getEnv
  intro env _
  exact frameV_ite (fun _ => frameV_setHead) (fun _ => frameV_throwJs)


theorem frameV_checkAll {Q : Env → Prop} {bs : List String} :
    FrameV Q nonPromptEv (fun _ => True) (checkAllPotentialConflictsM bs) := by
  unfold checkAllPotentialConflictsM
  exact frameV_probeAux _ _

theorem frameV_remoteSync {Q : Env → Prop} {oos : List String} :
    FrameV Q nonPromptEv (fun _ => True) (remoteSyncPhase oos false) := by
  unfold remoteSyncPhase
  apply frameV_ite
  · intro _
    apply frameV_ite
    · intro hc
      exact absurd hc (by simp)
    · intro _
      exact frameV_emitNP rfl
  · intro _
    apply frameV_ite
    · intro hc
      exact absurd hc (by simp)
    · intro _
      exact frameV_emitNP rfl

theorem frameV_precheck {Q : Env → Prop} {bs : List String} :
    FrameV Q nonPromptEv (fun _ => True) (precheckPhase bs) := by
  unfold precheckPhase
  refine frameV_bind frameV_shouldCheck fun shouldCheck _ => ?_
  refine frameV_ite (fun _ => ?_) (fun _ => frameV_emitNP rfl)
  exact frameV_bind frameV_checkAll fun pcs _ =>
    frameV_bind frameV_handlePre fun _ _ => frameV_pureT

theorem frameV_pushPhase {bs : List String} :
    FrameV (fun env => env.originExists = false) nonPromptEv (fun _ => True)
      (pushPhase .provided bs) := by
  unfold pushPhase
  refine frameV_bind frameV_checkOriginFalse fun p hp => ?_
  apply frameV_ite
  · intro hc
    exact absurd hc (by simp [hp])
  · intro _
    exact frameV_emitNP rfl

theorem frameV_returnToOriginal {Q : Env → Prop} {b : String} :
    FrameV Q nonPromptEv (fun _ => True) (returnToOriginalPhase b) := by
  unfold returnToOriginalPhase
  refine frameV_bind frameV_getCurrentBranch fun cur _ => ?_
  refine frameV_ite (fun _ => ?_) (fun _ => frameV_pureT)
  exact frameV_bind (frameV_emitNP rfl) fun _ _ => frameV_restoreSwitch

theorem frameV_restoreStash {Q : Env → Prop} {stashed : Bool} :
    FrameV Q nonPromptEv (fun _ => True) (restoreStashPhase stashed) := by
  unfold restoreStashPhase
  refine frameV_ite (fun _ => ?_) (fun _ => frameV_pureT)
  refine frameV_bind (frameV_emitNP rfl) fun _ _ => ?_
  refine frameV_bind frameV_getEnv fun env _ => ?_
  exact frameV_ite (fun _ => frameV_emitNP rfl)
    (fun _ => frameV_bind (frameV_emitNP rfl) fun _ _ => frameV_emitNP rfl)

theorem frameV_syncBody {bs : List String} {ob : String} {stashed : Bool} :
    FrameV (fun env => env.originExists = false) nonPromptEv (fun _ => True)
      (syncBody .provided bs ob stashed) := by
  unfold syncBody
  refine frameV_bind frameV_checkBranchStatuses fun report _ => ?_
  refine frameV_bind frameV_checkOriginFalse fun originExists hOE => ?_
  refine frameV_bind (hOE ▸ frameV_remoteSync) fun _ _ => ?_
  refine frameV_bind frameV_precheck fun _ _ => ?_
  refine frameV_bind (frameV_emitNP rfl) fun _ _ => ?_
  refine frameV_bind (frameV_loopAux _ _) fun _ _ => ?_
  refine frameV_bind (frameV_emitNP rfl) fun _ _ => ?_
  refine frameV_bind frameV_pushPhase fun _ _ => ?_
  exact frameV_bind frameV_returnToOriginal fun _ _ => frameV_restoreStash

theorem frameV_preflight {Q : Env → Prop} :
    FrameV Q nonPromptEv (fun _ => True) preflightStash := by
  unfold preflightStash
  refine frameV_bind frameV_isClean fun clean _ => ?_
  apply frameV_ite
  · intro _
    exact frameV_pureT
  · intro _
    exact frameV_handleUncommitted

theorem frameV_syncStackedPRs (bs : List String) :
    FrameV (fun env => env.originExists = false) nonPromptEv (fun _ => True)
      (syncStackedPRs .provided bs) := by
  unfold syncStackedPRs
  refine frameV_bind frameV_checkGitRepoM fun isRepo _ => ?_
  apply frameV_ite
  · intro _
    exact frameV_bind (frameV_emitNP rfl) fun _ _ => frameV_exitProcT
  · intro _
    refine frameV_bind frameV_preflight fun stashed _ => ?_
    refine frameV_bind frameV_getCurrentBranch fun originalBranch _ => ?_
    refine frameV_bind (frameV_emitNP rfl) fun _ _ => ?_
    refine frameV_tryCatch frameV_syncBody fun msg => ?_
    exact frameV_bind (frameV_emitNP rfl) fun _ _ => frameV_exitProcT

/-- C6 (amended): with no origin remote, every locally-existing branch is
classified no-remote, and the orchestrator (with the spec-modelled origin
check) never emits the remote-sync prompt, the push prompt or any branch
push: the run is a purely local operation. -/
theorem c6_no_origin_skips_sync_prompt_and_push (env : Env) (ans bs : List String)
    (h1 : env.originExists = false)
    (h2 : ∀ b, (env.q b).remoteRevParseOk = false) :
    (∀ b, (env.q b).showRefOk = true →
      getBranchStatus (env.q b) b = ⟨b, true, false, false, "no-remote"⟩) ∧
    Ev.syncPrompt ∉ resEvents (runSync .provided env ans bs) ∧
    Ev.pushPrompt ∉ resEvents (runSync .provided env ans bs) ∧
    ∀ b, Ev.pushBranch b ∉ resEvents (runSync .provided env ans bs) := by
  have hframe := frameV_syncStackedPRs bs (initW env ans) h1
  obtain ⟨⟨_, hev⟩, _⟩ := hframe
  have hall : ∀ e ∈ resEvents (runSync .provided env ans bs), nonPromptEv e := by
    intro e he
    rcases hev e he with h | h
    · exact absurd h (List.not_mem_nil e)
    · exact h
  refine ⟨?_, ?_, ?_, ?_⟩
  · intro b hb
    simp [getBranchStatus, hb, h2 b]
  · intro hmem
    have := hall _ hmem
    simp [nonPromptEv, Ev.isPromptish] at this
  · intro hmem
    have := hall _ hmem
    simp [nonPromptEv, Ev.isPromptish] at this
  · intro b hmem
    have := hall _ hmem
    simp [nonPromptEv, Ev.isPromptish] at this

theorem c6_no_origin_skips_sync_prompt_and_push_witness :
    (envBase.originExists = false ∧ ∀ b, (envBase.q b).remoteRevParseOk = false) ∧
    ((∀ b, (envBase.q b).showRefOk = true →
        getBranchStatus (envBase.q b) b = ⟨b, true, false, false, "no-remote"⟩) ∧
      Ev.syncPrompt ∉ resEvents (runSync .provided envBase ["2"] ["main", "f1"]) ∧
      Ev.pushPrompt ∉ resEvents (runSync .provided envBase ["2"] ["main", "f1"]) ∧
      ∀ b, Ev.pushBranch b ∉ resEvents (runSync .provided envBase ["2"] ["main", "f1"])) :=
  ⟨⟨rfl, fun _ => rfl⟩, c6_no_origin_skips_sync_prompt_and_push envBase ["2"] ["main", "f1"] rfl (fun _ => rfl)⟩

theorem run_bind_ok {x : M α} {f : α → M β} {w w1 : World} {a : α}
    (h : x w = (.ok a, w1)) : (x >>= f) w = f a w1 := by
  show Mbind x f w = f a w1
  unfold Mbind
  rw [h]

theorem run_bind_js {x : M α} {f : α → M β} {w w1 : World} {m : String}
    (h : x w = (.js m, w1)) : (x >>= f) w = (.js m, w1) := by
  show Mbind x f w = _
  unfold Mbind
  rw [h]

theorem run_bind_exit {x : M α} {f : α → M β} {w w1 : World} {c : Nat}
    (h : x w = (.exit c, w1)) : (x >>= f) w = (.exit c, w1) := by
  show Mbind x f w = _
  unfold Mbind
  rw [h]

theorem run_bind_ok_inv {x : M α} {f : α → M β} {w w2 : World} {b : β}
    (h : (x >>= f) w = (.ok b, w2)) :
    ∃ a w1, x w = (.ok a, w1) ∧ f a w1 = (.ok b, w2) := by
  rcases hx : x w with ⟨res, w1⟩
  rcases res with a | c | m
  · exact ⟨a, w1, rfl, by rw [run_bind_ok hx] at h; exact h⟩
  · rw [run_bind_exit hx] at h
    cases h
  · rw [run_bind_js hx] at h
    cases h

theorem run_tryCatch_ok_inv {x : M α} {h : String → M α} {w w2 : World} {b : α}
    (hr : tryCatchJs x h w = (.ok b, w2))
    (hnever : ∀ m w1, h m w1 ≠ (.ok b, w2)) :
    x w = (.ok b, w2) := by
  rcases hx : x w with ⟨res, w1⟩
  unfold tryCatchJs at hr
  rw [hx] at hr
  rcases res with a | c | m
  · exact hr
  · exact absurd hr (by simp)
  · exact absurd hr (hnever m w1)

theorem run_tryCatch_js {x : M α} {h : String → M α} {w w1 : World} {m : String}
    (hx : x w = (.js m, w1)) : tryCatchJs x h w = h m w1 := by
  unfold tryCatchJs
  rw [hx]

theorem run_checkGitRepo (w : World) : checkGitRepoM w = (.ok w.env.inGitRepo, w) := rfl

theorem run_isClean (w : World) (h : w.env.statusQueryOk = true) :
    isWorkingDirectoryCleanM w = (.ok (!w.env.dirty), w) := by
  show (if w.env.statusQueryOk = true then (pure (!w.env.dirty) : M Bool)
    else throwJs "Failed to check git status") w = _
  rw [if_pos h]
  rfl

theorem run_preflight_clean (w : World) (h1 : w.env.statusQueryOk = true)
    (h2 : w.env.dirty = false) : preflightStash w = (.ok false, w) := by
  unfold preflightStash
  rw [run_bind_ok (run_isClean w h1), h2]
  rfl

theorem run_preflight_dirty (w : World) (h1 : w.env.statusQueryOk = true)
    (h2 : w.env.dirty = true) (h3 : w.env.stashOk = true) :
    preflightStash w =
      (.ok true, { w with events := .stashed :: .info "uncommitted changes" :: w.events }) := by
  unfold preflightStash
  rw [run_bind_ok (run_isClean w h1), h2]
  show (if w.env.stashOk = true
      then (emit .stashed >>= fun _ => pure true : M Bool)
      else (emit (.info "stash failed") >>= fun _ => exitProc 1))
    { w with events := .info "uncommitted changes" :: w.events } = _
  rw [if_pos h3]
  rfl

theorem run_getCurrentBranch (w : World) (h : w.env.curBranchOk = true) :
    getCurrentBranchM w = (.ok w.head, w) := by
  show (if w.env.curBranchOk = true then getHead
    else throwJs "Failed to get current branch name") w = _
  rw [if_pos h]
  rfl

theorem run_checkBranchStatuses (bs : List String) (w : World) :
    checkBranchStatusesM bs w =
      (.ok ((checkBranchStatusesAux w.env bs).1, (checkBranchStatusesAux w.env bs).2.1),
       { w with events := (checkBranchStatusesAux w.env bs).2.2 ++ w.events }) := rfl

theorem run_checkOrigin_provided (w : World) :
    checkOriginExistsM .provided w = (.ok w.env.originExists, w) := rfl

theorem run_checkOrigin_missing (w : World) :
    checkOriginExistsM .missing w = (.js "checkOriginExists is not a function", w) := rfl

theorem run_emit (e : Ev) (w : World) :
    emit e w = (.ok (), { w with events := e :: w.events }) := rfl

theorem run_remoteSync_noOrigin (oos : List String) (w : World) :
    remoteSyncPhase oos false w = (.ok (), { w with events := .noOriginInfo :: w.events }) := by
  unfold remoteSyncPhase
  by_cases h : oos.length > 0 <;> simp [h] <;> rfl

theorem run_shouldCheck_disabled (w : World) (h : w.env.config = some disableCfg) :
    shouldCheckConflictsM w = (.ok false, w) := by
  have hstep : shouldCheckConflictsM w =
      (match w.env.config with
        | none => (pure true : M Bool)
        | some c =>
          match c.settings with
          | none => pure true
          | some s =>
            match s.preConflictCheck with
            | none => throwJs "Cannot read properties of undefined"
            | some enabled => pure enabled) w := rfl
  rw [hstep, h]
  rfl

theorem run_precheck_disabled (bs : List String) (w : World)
    (h : w.env.config = some disableCfg) :
    precheckPhase bs w = (.ok (), { w with events := .skipConflictCheckWarn :: w.events }) := by
  unfold precheckPhase
  rw [run_bind_ok (run_shouldCheck_disabled w h)]
  rfl

theorem run_pushPhase_noOrigin (bs : List String) (w : World)
    (h : w.env.originExists = false) :
    pushPhase .provided bs w = (.ok (), { w with events := .skipPushInfo :: w.events }) := by
  unfold pushPhase
  rw [run_bind_ok (run_checkOrigin_provided w), h]
  rfl

theorem run_preflight_cleanL (e : Env) (hd : String) (a : List String) (evs : List Ev)
    (h1 : e.statusQueryOk = true) (h2 : e.dirty = false) :
    preflightStash ⟨e, hd, a, evs⟩ = (.ok false, ⟨e, hd, a, evs⟩) :=
  run_preflight_clean _ h1 h2

theorem run_preflight_dirtyL (e : Env) (hd : String) (a : List String) (evs : List Ev)
    (h1 : e.statusQueryOk = true) (h2 : e.dirty = true) (h3 : e.stashOk = true) :
    preflightStash ⟨e, hd, a, evs⟩ =
      (.ok true, ⟨e, hd, a, .stashed :: .info "uncommitted changes" :: evs⟩) :=
  run_preflight_dirty _ h1 h2 h3

theorem run_getCurrentBranchL (e : Env) (hd : String) (a : List String) (evs : List Ev)
    (h : e.curBranchOk = true) :
    getCurrentBranchM ⟨e, hd, a, evs⟩ = (.ok hd, ⟨e, hd, a, evs⟩) :=
  run_getCurrentBranch _ h

theorem run_emitL (ev : Ev) (e : Env) (hd : String) (a : List String) (evs : List Ev) :
    emit ev ⟨e, hd, a, evs⟩ = (.ok (), ⟨e, hd, a, ev :: evs⟩) := rfl

theorem run_checkBranchStatusesL (bs : List String) (e : Env) (hd : String)
    (a : List String) (evs : List Ev) :
    checkBranchStatusesM bs ⟨e, hd, a, evs⟩ =
      (.ok ((checkBranchStatusesAux e bs).1, (checkBranchStatusesAux e bs).2.1),
       ⟨e, hd, a, (checkBranchStatusesAux e bs).2.2 ++ evs⟩) := rfl

theorem statusLine_mem (env : Env) (bs : List String) (b : String) (hb : b ∈ bs) :
    Ev.statusLine b (getBranchStatus (env.q b) b).syncStatus ∈
      (checkBranchStatusesAux env bs).2.2 := by
  induction bs with
  | nil => cases hb
  | cons x rest ih =>
    rcases List.mem_cons.mp hb with h | h
    · subst h
      exact List.mem_cons_self _ _
    · exact List.mem_cons_of_mem _ (ih h)

/-- C2: In a git repository, every run reaches the call to checkOriginExists
placed after the status report; since the git utils module does not export
that function the call throws, the orchestrator catch reports the error and
the process exits with status 1 before any real merge is attempted, with
every per-branch status line already printed. -/
theorem c2_missing_origin_check_aborts_every_run (env : Env) (ans bs : List String)
    (h1 : env.inGitRepo = true) (h2 : env.statusQueryOk = true)
    (h3 : env.stashOk = true) (h4 : env.curBranchOk = true) :
    resCode (runSync .missing env ans bs) = some 1 ∧
    Ev.caughtError "checkOriginExists is not a function" ∈
      resEvents (runSync .missing env ans bs) ∧
    (∀ e ∈ resEvents (runSync .missing env ans bs), e.isMergeAttempt = false) ∧
    ∀ b ∈ bs, Ev.statusLine b (getBranchStatus (env.q b) b).syncStatus ∈
      resEvents (runSync .missing env ans bs) := by
  have hbody : ∀ (st : Bool) hd a evs, syncBody .missing bs hd st ⟨env, hd, a, evs⟩ =
      (.js "checkOriginExists is not a function",
       ⟨env, hd, a, (checkBranchStatusesAux env bs).2.2 ++ evs⟩) := by
    intro st hd a evs
    unfold syncBody
    rw [run_bind_ok (run_checkBranchStatusesL bs env hd a evs)]
    exact run_bind_js (run_checkOrigin_missing _)
  have hmain : ∃ pre : List Ev, (∀ e ∈ pre, e.isMergeAttempt = false) ∧
      runSync .missing env ans bs =
        (.exit 1, ⟨env, env.initialBranch, ans,
          .caughtError "checkOriginExists is not a function" ::
            ((checkBranchStatusesAux env bs).2.2 ++
              (.info "starting branch recorded" :: pre))⟩) := by
    rcases hd : env.dirty with _ | _
    · refine ⟨[], by simp, ?_⟩
      show syncStackedPRs .missing bs ⟨env, env.initialBranch, ans, []⟩ = _
      unfold syncStackedPRs
      rw [run_bind_ok (run_checkGitRepo _)]
      simp only [h1, Bool.not_true, Bool.false_eq_true, if_false]
      rw [run_bind_ok (run_preflight_cleanL env _ ans [] h2 hd)]
      rw [run_bind_ok (run_getCurrentBranchL env _ ans [] h4)]
      rw [run_bind_ok (run_emitL _ env _ ans [])]
      rw [run_tryCatch_js (hbody false _ ans _)]
      rfl
    · refine ⟨[.stashed, .info "uncommitted changes"], by simp [Ev.isMergeAttempt], ?_⟩
      show syncStackedPRs .missing bs ⟨env, env.initialBranch, ans, []⟩ = _
      unfold syncStackedPRs
      rw [run_bind_ok (run_checkGitRepo _)]
      simp only [h1, Bool.not_true, Bool.false_eq_true, if_false]
      rw [run_bind_ok (run_preflight_dirtyL env _ ans [] h2 hd h3)]
      rw [run_bind_ok (run_getCurrentBranchL env _ ans _ h4)]
      rw [run_bind_ok (run_emitL _ env _ ans _)]
      rw [run_tryCatch_js (hbody true _ ans _)]
      rfl
  obtain ⟨pre, hpre, hrun⟩ := hmain
  rw [hrun]
  refine ⟨rfl, ?_, ?_, ?_⟩
  · exact List.mem_cons_self _ _
  · intro e he
    rcases List.mem_cons.mp he with h | h
    · subst h; rfl
    · rcases List.mem_append.mp h with h1 | h1
      · obtain ⟨b, s, hb⟩ := checkBranchStatusesAux_events env bs e h1
        subst hb; rfl
      · rcases List.mem_cons.mp h1 with h2 | h2
        · subst h2; rfl
        · exact hpre e h2
  · intro b hb
    exact List.mem_cons_of_mem _
      (List.mem_append_left _ (statusLine_mem env bs b hb))

theorem loopAux_break (env : Env) (bs : List String) (i : Nat)
    (hsw : env.switchOk i = true) (hmg : env.mergeOk i = false)
    (hca : env.conflictAfter i = false) :
    ∀ (fuel k : Nat) (w : World), w.env = env →
      k ≤ i → i < k + fuel →
      (∀ j, k ≤ j → j < i → env.switchOk j = true ∧ env.mergeOk j = true) →
      ∃ evs, loopAux bs fuel k w =
          (.ok (), { w with head := bs.getD (i + 1) "", events := evs ++ w.events }) ∧
        Ev.mergeFailedNonConflict (bs.getD i "") (bs.getD (i + 1) "") ∈ evs ∧
        (∀ j s, Ev.mergeAttempt j s ∈ evs → k ≤ j ∧ j ≤ i) ∧
        (∀ e ∈ evs, e.isPromptish = false) := by
  intro fuel
  induction fuel with
  | zero => intro k w _ hki hik _; omega
  | succ fuel ih =>
    intro k w hwenv hki hik hpre
    rcases w with ⟨we, wh, wa, wev⟩
    simp only at hwenv
    subst hwenv
    rcases Nat.eq_or_lt_of_le hki with heq | hlt
    · subst heq
      refine ⟨[.mergeFailedNonConflict (bs.getD k "") (bs.getD (k + 1) ""),
        .mergeAttempt k (bs.getD k ""), .mergeStep k], ?_, by simp, ?_, ?_⟩
      · simp only [loopAux, mergeStepM, switchToBranchM, mergeFromBranchM, hasConflictsM,
          handleConflictsM, emit, setHead, getEnv, bind_eq, pure_eq, Mbind, Mpure, exitProc,
          hsw, hmg, hca, if_true, ite_true, Bool.false_eq_true, if_false, ite_false]
        rfl
      · intro j s hmem
        simp only [List.mem_cons, List.not_mem_nil, or_false, Ev.mergeAttempt.injEq] at hmem
        rcases hmem with h | ⟨h, _⟩ | h
        · exact absurd h (by simp)
        · omega
        · exact absurd h (by simp)
      · intro e he
        simp only [List.mem_cons, List.not_mem_nil, or_false] at he
        rcases he with h | h | h <;> subst h <;> rfl
    · obtain ⟨hswk, hmgk⟩ := hpre k le_rfl hlt
      obtain ⟨evs, hrun, h1, h2, h3⟩ := ih (k + 1)
        ⟨we, bs.getD (k + 1) "", wa, .mergeAttempt k (bs.getD k "") :: .mergeStep k :: wev⟩
        rfl hlt (by omega) (fun j hj1 hj2 => hpre j (Nat.le_of_succ_le hj1) hj2)
      refine ⟨evs ++ [.mergeAttempt k (bs.getD k ""), .mergeStep k], ?_,
        List.mem_append_left _ h1, ?_, ?_⟩
      · simp only [loopAux, mergeStepM, switchToBranchM, mergeFromBranchM, hasConflictsM,
          handleConflictsM, emit, setHead, getEnv, bind_eq, pure_eq, Mbind, Mpure, exitProc,
          hswk, hmgk, if_true, ite_true]
        rw [hrun]
        simp
      · intro j s hmem
        rcases List.mem_append.mp hmem with h | h
        · have := h2 j s h
          omega
        · simp only [List.mem_cons, List.not_mem_nil, or_false, Ev.mergeAttempt.injEq] at h
          rcases h with ⟨h, _⟩ | h
          · omega
          · exact absurd h (by simp)
      · intro e he
        rcases List.mem_append.mp he with h | h
        · exact h3 e h
        · simp only [List.mem_cons, List.not_mem_nil, or_false] at h
          rcases h with h | h <;> subst h <;> rfl

theorem run_checkOriginProvidedL (e : Env) (hd : String) (a : List String) (evs : List Ev) :
    checkOriginExistsM .provided ⟨e, hd, a, evs⟩ = (.ok e.originExists, ⟨e, hd, a, evs⟩) := rfl

theorem run_remoteSync_noOriginL (oos : List String) (e : Env) (hd : String)
    (a : List String) (evs : List Ev) :
    remoteSyncPhase oos false ⟨e, hd, a, evs⟩ =
      (.ok (), ⟨e, hd, a, .noOriginInfo :: evs⟩) :=
  run_remoteSync_noOrigin oos _

theorem run_precheck_disabledL (bs : List String) (e : Env) (hd : String)
    (a : List String) (evs : List Ev) (h : e.config = some disableCfg) :
    precheckPhase bs ⟨e, hd, a, evs⟩ = (.ok (), ⟨e, hd, a, .skipConflictCheckWarn :: evs⟩) :=
  run_precheck_disabled bs _ h

theorem run_pushPhase_noOriginL (bs : List String) (e : Env) (hd : String)
    (a : List String) (evs : List Ev) (h : e.originExists = false) :
    pushPhase .provided bs ⟨e, hd, a, evs⟩ = (.ok (), ⟨e, hd, a, .skipPushInfo :: evs⟩) :=
  run_pushPhase_noOrigin bs _ h

theorem run_returnToOriginal_switchL (e : Env) (hd ob : String) (a : List String)
    (evs : List Ev) (h4 : e.curBranchOk = true) (hne : ob ≠ hd)
    (hrs : e.restoreSwitchOk = true) :
    returnToOriginalPhase ob ⟨e, hd, a, evs⟩ =
      (.ok (), ⟨e, ob, a, .returningToOriginal ob :: evs⟩) := by
  unfold returnToOriginalPhase
  rw [run_bind_ok (run_getCurrentBranchL e hd a evs h4)]
  rw [if_pos hne]
  rw [run_bind_ok (run_emitL _ e hd a evs)]
  show (if e.restoreSwitchOk = true then setHead ob
    else throwJs ("Failed to switch to branch: " ++ ob)) _ = _
  rw [if_pos hrs]
  rfl

theorem run_restoreStash_false (w : World) : restoreStashPhase false w = (.ok (), w) := rfl

theorem run_tryCatch_ok {x : M α} {h : String → M α} {w w1 : World} {a : α}
    (hx : x w = (.ok a, w1)) : tryCatchJs x h w = (.ok a, w1) := by
  unfold tryCatchJs
  rw [hx]

/-- C7 (amended): a non-conflict merge failure breaks out of the real merge
loop — the error is reported and no later merge is attempted — but the
run then falls through to the success report and the remaining phases and
completes as if it had succeeded. -/
theorem c7_nonconflict_failure_stops_merges_but_reports_success (env : Env) (ans bs : List String) (i : Nat)
    (h1 : env.inGitRepo = true) (h2 : env.statusQueryOk = true)
    (hdirty : env.dirty = false) (h4 : env.curBranchOk = true)
    (hOE : env.originExists = false) (hcfg : env.config = some disableCfg)
    (hpre : ∀ j, j < i → env.switchOk j = true ∧ env.mergeOk j = true)
    (hswi : env.switchOk i = true) (hmgi : env.mergeOk i = false)
    (hcai : env.conflictAfter i = false) (hi : i < bs.length - 1)
    (hne : env.initialBranch ≠ bs.getD (i + 1) "") (hrs : env.restoreSwitchOk = true) :
    resOk (runSync .provided env ans bs) = true ∧
    Ev.mergeFailedNonConflict (bs.getD i "") (bs.getD (i + 1) "") ∈
      resEvents (runSync .provided env ans bs) ∧
    Ev.successReport ∈ resEvents (runSync .provided env ans bs) ∧
    ∀ j s, Ev.mergeAttempt j s ∈ resEvents (runSync .provided env ans bs) → j ≤ i := by
  obtain ⟨levs, hloop, hmf, hbound, hprompt⟩ :=
    loopAux_break env bs i hswi hmgi hcai (bs.length - 1) 0
      ⟨env, env.initialBranch, ans,
        .info "syncing branches locally" :: .skipConflictCheckWarn :: .noOriginInfo ::
          ((checkBranchStatusesAux env bs).2.2 ++ [.info "starting branch recorded"])⟩
      rfl (Nat.zero_le i) (by omega) (fun j _ hj => hpre j hj)
  have hloop2 : loopAux bs (bs.length - 1) 0
      ⟨env, env.initialBranch, ans,
        .info "syncing branches locally" :: .skipConflictCheckWarn :: .noOriginInfo ::
          ((checkBranchStatusesAux env bs).2.2 ++ [.info "starting branch recorded"])⟩ =
      (.ok (), ⟨env, bs.getD (i + 1) "", ans,
        levs ++ (.info "syncing branches locally" :: .skipConflictCheckWarn :: .noOriginInfo ::
          ((checkBranchStatusesAux env bs).2.2 ++ [.info "starting branch recorded"]))⟩) := hloop
  have hbody : syncBody .provided bs env.initialBranch false
      ⟨env, env.initialBranch, ans, [.info "starting branch recorded"]⟩ =
      (.ok (), ⟨env, env.initialBranch, ans,
        .returningToOriginal env.initialBranch :: .skipPushInfo :: .successReport ::
          (levs ++ (.info "syncing branches locally" :: .skipConflictCheckWarn :: .noOriginInfo ::
            ((checkBranchStatusesAux env bs).2.2 ++ [.info "starting branch recorded"])))⟩) := by
    unfold syncBody
    rw [run_bind_ok (run_checkBranchStatusesL bs env _ ans _)]
    rw [run_bind_ok (run_checkOriginProvidedL env _ ans _)]
    rw [hOE]
    rw [run_bind_ok (run_remoteSync_noOriginL _ env _ ans _)]
    rw [run_bind_ok (run_precheck_disabledL bs env _ ans _ hcfg)]
    rw [run_bind_ok (run_emitL _ env _ ans _)]
    unfold realMergeLoop
    rw [run_bind_ok hloop2]
    rw [run_bind_ok (run_emitL _ env _ ans _)]
    rw [run_bind_ok (run_pushPhase_noOriginL bs env _ ans _ hOE)]
    rw [run_bind_ok (run_returnToOriginal_switchL env _ _ ans _ h4 hne hrs)]
    exact run_restoreStash_false _
  have hrun : runSync .provided env ans bs =
      (.ok (), ⟨env, env.initialBranch, ans,
        .returningToOriginal env.initialBranch :: .skipPushInfo :: .successReport ::
          (levs ++ (.info "syncing branches locally" :: .skipConflictCheckWarn :: .noOriginInfo ::
            ((checkBranchStatusesAux env bs).2.2 ++ [.info "starting branch recorded"])))⟩) := by
    show syncStackedPRs .provided bs ⟨env, env.initialBranch, ans, []⟩ = _
    unfold syncStackedPRs
    rw [run_bind_ok (run_checkGitRepo _)]
    simp only [h1, Bool.not_true, Bool.false_eq_true, if_false]
    rw [run_bind_ok (run_preflight_cleanL env _ ans [] h2 hdirty)]
    rw [run_bind_ok (run_getCurrentBranchL env _ ans [] h4)]
    rw [run_bind_ok (run_emitL _ env _ ans [])]
    exact run_tryCatch_ok hbody
  rw [hrun]
  refine ⟨rfl, ?_, ?_, ?_⟩
  · refine List.mem_cons_of_mem _ (List.mem_cons_of_mem _ (List.mem_cons_of_mem _ ?_))
    exact List.mem_append_left _ hmf
  · exact List.mem_cons_of_mem _ (List.mem_cons_of_mem _ (List.mem_cons_self _ _))
  · intro j s hmem
    simp only [resEvents, List.mem_cons] at hmem
    rcases hmem with h | h | h | h
    · exact absurd h (by simp)
    · exact absurd h (by simp)
    · exact absurd h (by simp)
    · rcases List.mem_append.mp h with h5 | h5
      · exact (hbound j s h5).2
      · simp only [List.mem_cons] at h5
        rcases h5 with h6 | h6 | h6 | h6
        · exact absurd h6 (by simp)
        · exact absurd h6 (by simp)
        · exact absurd h6 (by simp)
        · rcases List.mem_append.mp h6 with h7 | h7
          · obtain ⟨b, st, hb⟩ := checkBranchStatusesAux_events env bs _ h7
            exact absurd hb (by simp)
          · simp only [List.mem_cons, List.not_mem_nil, or_false] at h7
            exact absurd h7 (by simp)

theorem frameV_emitT {Q : Env → Prop} {e : Ev} :
    FrameV Q (fun _ => True) (fun _ => True) (emit e) := frameV_emit trivial

theorem frameV_popAnswerT {Q : Env → Prop} :
    FrameV Q (fun _ => True) (fun _ => True) popAnswer := frameV_popAnswer

theorem frameV_forM {Q : Env → Prop} {P : Ev → Prop} {f : α → M PUnit} {l : List α}
    (h : ∀ a ∈ l, FrameV Q P (fun _ => True) (f a)) :
    FrameV Q P (fun _ => True) (l.forM f) := by
  induction l with
  | nil => exact frameV_pureT
  | cons a rest ih =>
    show FrameV _ _ _ (f a >>= fun _ => rest.forM f)
    refine frameV_bind (h a (List.mem_cons_self a rest)) fun _ _ => ?_
    exact ih fun x hx => h x (List.mem_cons_of_mem _ hx)

theorem frameT_syncAll {Q : Env → Prop} {bs : List String} :
    FrameV Q (fun _ => True) (fun _ => True) (syncAllBranchesM bs) := by
  unfold syncAllBranchesM
  refine frameV_forM fun b _ => ?_
  refine frameV_bind frameV_emitT fun _ _ => ?_
  refine frameV_bind frameV_getEnv fun env _ => ?_
  apply frameV_ite
  · intro _
    refine frameV_bind frameV_setHead fun _ _ => ?_
    apply frameV_ite
    · intro _
      exact frameV_emitT
    · intro _
      exact frameV_emitT
  · intro _
    exact frameV_emitT

theorem frameT_syncOneByOne {Q : Env → Prop} {bs : List String} :
    FrameV Q (fun _ => True) (fun _ => True) (syncBranchesOneByOneM bs) := by
  unfold syncBranchesOneByOneM
  refine frameV_forM fun b _ => ?_
  refine frameV_bind frameV_popAnswerT fun ans _ => ?_
  apply frameV_ite
  · intro _
    refine frameV_bind frameV_getEnv fun env _ => ?_
    apply frameV_ite
    · intro _
      refine frameV_bind frameV_setHead fun _ _ => ?_
      apply frameV_ite
      · intro _
        exact frameV_emitT
      · intro _
        exact frameV_emitT
    · intro _
      exact frameV_emitT
  · intro _
    exact frameV_emitT

theorem frameT_handleOutOfSync {Q : Env → Prop} {oos : List String} :
    FrameV Q (fun _ => True) (fun _ => True) (handleOutOfSyncBranchesM oos) := by
  unfold handleOutOfSyncBranchesM
  refine frameV_bind frameV_emitT fun _ _ => ?_
  refine frameV_bind frameV_popAnswerT fun ans _ => ?_
  apply frameV_ite
  · intro _
    exact frameT_syncAll
  · intro _
    apply frameV_ite
    · intro _
      exact frameT_syncOneByOne
    · intro _
      apply frameV_ite
      · intro _
        exact frameV_emitT
      · intro _
        apply frameV_ite
        · intro _
          exact frameV_exitProcT
        · intro _
          exact frameV_exitProcT

theorem frameT_remoteSync {Q : Env → Prop} {oos : List String} {flag : Bool} :
    FrameV Q (fun _ => True) (fun _ => True) (remoteSyncPhase oos flag) := by
  unfold remoteSyncPhase
  apply frameV_ite
  · intro _
    apply frameV_ite
    · intro _
      exact frameT_handleOutOfSync
    · intro _
      exact frameV_emitT
  · intro _
    apply frameV_ite
    · intro _
      exact frameV_emitT
    · intro _
      exact frameV_emitT

theorem frameT_pushAll {Q : Env → Prop} {bs : List String} :
    FrameV Q (fun _ => True) (fun _ => True) (pushAllBranchesM bs) := by
  unfold pushAllBranchesM
  refine frameV_forM fun b _ => ?_
  refine frameV_bind frameV_emitT fun _ _ => ?_
  refine frameV_bind frameV_getEnv fun env _ => ?_
  apply frameV_ite
  · intro _
    exact frameV_emitT
  · intro _
    exact frameV_emitT

theorem frameT_pushOneByOne {Q : Env → Prop} {bs : List String} :
    FrameV Q (fun _ => True) (fun _ => True) (pushBranchesOneByOneM bs) := by
  unfold pushBranchesOneByOneM
  refine frameV_forM fun b _ => ?_
  refine frameV_bind frameV_popAnswerT fun ans _ => ?_
  apply frameV_ite
  · intro _
    refine frameV_bind frameV_emitT fun _ _ => ?_
    refine frameV_bind frameV_getEnv fun env _ => ?_
    apply frameV_ite
    · intro _
      exact frameV_emitT
    · intro _
      exact frameV_emitT
  · intro _
    exact frameV_emitT

theorem frameT_askToPush {Q : Env → Prop} {bs : List String} :
    FrameV Q (fun _ => True) (fun _ => True) (askToPushChangesM bs) := by
  unfold askToPushChangesM
  refine frameV_bind frameV_emitT fun _ _ => ?_
  refine frameV_bind frameV_popAnswerT fun ans _ => ?_
  apply frameV_ite
  · intro _
    exact frameT_pushAll
  · intro _
    apply frameV_ite
    · intro _
      exact frameT_pushOneByOne
    · intro _
      apply frameV_ite
      · intro _
        exact frameV_emitT
      · intro _
        exact frameV_emitT

theorem frameT_checkOrigin {Q : Env → Prop} {binding : OriginBinding} :
    FrameV Q (fun _ => True) (fun _ => True) (checkOriginExistsM binding) := by
  rcases binding
  · exact frameV_throwJsT
  · unfold checkOriginExistsM checkOriginExistsSpec
    exact frameV_bind frameV_getEnv fun env _ => frameV_pureT

theorem frameT_pushPhase {Q : Env → Prop} {binding : OriginBinding} {bs : List String} :
    FrameV Q (fun _ => True) (fun _ => True) (pushPhase binding bs) := by
  unfold pushPhase
  refine frameV_bind frameT_checkOrigin fun p _ => ?_
  apply frameV_ite
  · intro _
    exact frameT_askToPush
  · intro _
    exact frameV_emitT

theorem env_preserved {x : M α} {P : Ev → Prop} {V : α → Prop}
    (hf : FrameV (fun _ => True) P V x) {w w2 : World} {a : α}
    (h : x w = (.ok a, w2)) : w2.env = w.env := by
  have := (hf w trivial).1.1
  rw [h] at this
  exact this

theorem run_isClean_fail (w : World) (h : w.env.statusQueryOk = false) :
    isWorkingDirectoryCleanM w = (.js "Failed to check git status", w) := by
  show (if w.env.statusQueryOk = true then (pure (!w.env.dirty) : M Bool)
    else throwJs "Failed to check git status") w = _
  rw [if_neg (by simp [h])]
  rfl

theorem run_preflight_statusfail (w : World) (h : w.env.statusQueryOk = false) :
    preflightStash w = (.js "Failed to check git status", w) := by
  unfold preflightStash
  exact run_bind_js (run_isClean_fail w h)

theorem run_preflight_stashfail (w : World) (h1 : w.env.statusQueryOk = true)
    (h2 : w.env.dirty = true) (h3 : w.env.stashOk = false) :
    preflightStash w = (.exit 1,
      { w with events := .info "stash failed" :: .info "uncommitted changes" :: w.events }) := by
  unfold preflightStash
  rw [run_bind_ok (run_isClean w h1), h2]
  show handleUncommittedChangesM w = _
  unfold handleUncommittedChangesM
  rw [run_bind_ok (run_emit _ w)]
  show (if w.env.stashOk = true then (emit .stashed >>= fun _ => pure true : M Bool)
    else (emit (.info "stash failed") >>= fun _ => exitProc 1)) _ = _
  rw [if_neg (by simp [h3])]
  rw [run_bind_ok (run_emit _ _)]
  rfl

theorem preflight_inv {w w2 : World} {st : Bool}
    (h : preflightStash w = (.ok st, w2)) (hd : w.env.dirty = true) :
    st = true ∧ w2.env = w.env ∧ w2.head = w.head ∧ w2.answers = w.answers := by
  rcases hs : w.env.statusQueryOk with _ | _
  · rw [run_preflight_statusfail w hs] at h
    cases h
  · rcases hst : w.env.stashOk with _ | _
    · rw [run_preflight_stashfail w hs hd hst] at h
      cases h
    · rw [run_preflight_dirty w hs hd hst] at h
      injection h with ha hb
      injection ha with ha
      subst hb
      exact ⟨ha.symm, rfl, rfl, rfl⟩

theorem run_getCurrent_fail (w : World) (h : w.env.curBranchOk = false) :
    getCurrentBranchM w = (.js "Failed to get current branch name", w) := by
  show (if w.env.curBranchOk = true then getHead
    else throwJs "Failed to get current branch name") w = _
  rw [if_neg (by simp [h])]
  rfl

theorem getCurrent_inv {w w2 : World} {b : String}
    (h : getCurrentBranchM w = (.ok b, w2)) : b = w.head ∧ w2 = w := by
  rcases hc : w.env.curBranchOk with _ | _
  · rw [run_getCurrent_fail w hc] at h
    cases h
  · rw [run_getCurrentBranch w hc] at h
    injection h with ha hb
    injection ha with ha
    exact ⟨ha.symm, hb.symm⟩

theorem run_switchRestore_ok (b : String) (w : World) (h : w.env.restoreSwitchOk = true) :
    switchToBranchRestoreM b w = (.ok (), { w with head := b }) := by
  show (if w.env.restoreSwitchOk = true then setHead b
    else throwJs ("Failed to switch to branch: " ++ b)) w = _
  rw [if_pos h]
  rfl

theorem run_switchRestore_fail (b : String) (w : World)
    (h : w.env.restoreSwitchOk = false) :
    switchToBranchRestoreM b w = (.js ("Failed to switch to branch: " ++ b), w) := by
  show (if w.env.restoreSwitchOk = true then setHead b
    else throwJs ("Failed to switch to branch: " ++ b)) w = _
  rw [if_neg (by simp [h])]
  rfl

theorem returnToOriginal_inv {ob : String} {w w2 : World} {u : Unit}
    (h : returnToOriginalPhase ob w = (.ok u, w2)) :
    w2.head = ob ∧ w2.env = w.env ∧ w2.answers = w.answers := by
  unfold returnToOriginalPhase at h
  rcases hc : w.env.curBranchOk with _ | _
  · rw [run_bind_js (run_getCurrent_fail w hc)] at h
    cases h
  · rw [run_bind_ok (run_getCurrentBranch w hc)] at h
    by_cases hne : ob ≠ w.head
    · rw [if_pos hne] at h
      rw [run_bind_ok (run_emit _ w)] at h
      rcases hrs : w.env.restoreSwitchOk with _ | _
      · rw [run_switchRestore_fail ob
          { w with events := Ev.returningToOriginal ob :: w.events } hrs] at h
        cases h
      · rw [run_switchRestore_ok ob
          { w with events := Ev.returningToOriginal ob :: w.events } hrs] at h
        injection h with _ hb
        subst hb
        exact ⟨rfl, rfl, rfl⟩
    · rw [if_neg hne] at h
      push_neg at hne
      injection h with _ hb
      subst hb
      exact ⟨hne.symm, rfl, rfl⟩

theorem run_restoreStash_pop (w : World) (h : w.env.stashPopOk = true) :
    restoreStashPhase true w =
      (.ok (), { w with events := .info "stash restored" :: .restoringStash :: w.events }) := by
  unfold restoreStashPhase
  rw [if_pos rfl]
  rw [run_bind_ok (run_emit _ w)]
  show (if w.env.stashPopOk = true then emit (.info "stash restored")
    else (emit .stashPopWarning >>= fun _ => emit .stashPopManualHint)) _ = _
  rw [if_pos h]
  rfl

theorem run_restoreStash_popfail (w : World) (h : w.env.stashPopOk = false) :
    restoreStashPhase true w =
      (.ok (), { w with events :=
        .stashPopManualHint :: .stashPopWarning :: .restoringStash :: w.events }) := by
  unfold restoreStashPhase
  rw [if_pos rfl]
  rw [run_bind_ok (run_emit _ w)]
  show (if w.env.stashPopOk = true then emit (.info "stash restored")
    else (emit .stashPopWarning >>= fun _ => emit .stashPopManualHint)) _ = _
  rw [if_neg (by simp [h])]
  rw [run_bind_ok (run_emit _ _)]
  rfl

theorem frameT_realMergeLoop {Q : Env → Prop} {bs : List String} :
    FrameV Q nonPromptEv (fun _ => True) (realMergeLoop bs) := by
  unfold realMergeLoop
  exact frameV_loopAux _ _

theorem getCurrent_inv2 {w w2 : World} {b : String}
    (h : getCurrentBranchM w = (.ok b, w2)) :
    b = w.head ∧ w2.head = w.head ∧ w2.env = w.env ∧ w2.answers = w.answers := by
  obtain ⟨hb, hw⟩ := getCurrent_inv h
  subst hw
  exact ⟨hb, rfl, rfl, rfl⟩

theorem emit_inv {e : Ev} {w w2 : World} {u : Unit}
    (h : emit e w = (.ok u, w2)) :
    w2.head = w.head ∧ w2.env = w.env ∧ w2.answers = w.answers ∧
    w2.events = e :: w.events := by
  rw [run_emit e w] at h
  injection h with _ hw
  subst hw
  exact ⟨rfl, rfl, rfl, rfl⟩

theorem checkBranchStatuses_inv {bs : List String} {w w2 : World}
    {v : List BranchStatusR × List String}
    (h : checkBranchStatusesM bs w = (.ok v, w2)) :
    w2.head = w.head ∧ w2.env = w.env ∧ w2.answers = w.answers := by
  rw [run_checkBranchStatuses bs w] at h
  injection h with _ hw
  subst hw
  exact ⟨rfl, rfl, rfl⟩

theorem checkOriginProvided_inv {w w2 : World} {v : Bool}
    (h : checkOriginExistsM .provided w = (.ok v, w2)) : w2 = w := by
  rw [run_checkOrigin_provided w] at h
  injection h with _ hw
  exact hw.symm

/-- C5 (amended): the restore phase executes on every run that completes
normally (without an in-run process exit): the originally recorded branch
is checked out again, the preflight stash is popped when popping succeeds,
and a failed pop produces a warning plus a manual-restore hint instead of
aborting the run. -/
theorem c5_restore_runs_on_normal_completion (env : Env) (ans bs : List String)
    (hdirty : env.dirty = true)
    (hok : resOk (runSync .provided env ans bs) = true) :
    (runSync .provided env ans bs).2.head = env.initialBranch ∧
    Ev.restoringStash ∈ resEvents (runSync .provided env ans bs) ∧
    (env.stashPopOk = true →
      Ev.info "stash restored" ∈ resEvents (runSync .provided env ans bs)) ∧
    (env.stashPopOk = false →
      Ev.stashPopWarning ∈ resEvents (runSync .provided env ans bs) ∧
      Ev.stashPopManualHint ∈ resEvents (runSync .provided env ans bs)) := by
  rcases hr : runSync .provided env ans bs with ⟨res, wf⟩
  rcases res with u | c | m
  rotate_left
  · rw [hr] at hok
    simp [resOk] at hok
  · rw [hr] at hok
    simp [resOk] at hok
  have hrunA : syncStackedPRs .provided bs ⟨env, env.initialBranch, ans, []⟩ = (.ok u, wf) := hr
  unfold syncStackedPRs at hrunA
  obtain ⟨isRepo, w1, hx1, hrunB⟩ := run_bind_ok_inv hrunA
  rw [run_checkGitRepo _] at hx1
  injection hx1 with he1 he2
  injection he1 with he1
  subst he2
  rcases hrep : env.inGitRepo with _ | _ <;> rw [hrep] at he1 <;> subst he1
  · rw [if_pos (by decide)] at hrunB
    rw [run_bind_ok (run_emitL _ env _ ans [])] at hrunB
    cases hrunB
  · rw [if_neg (by decide)] at hrunB
    obtain ⟨st, w2, hx2, hrunC⟩ := run_bind_ok_inv hrunB
    obtain ⟨hst, henv2, hhead2, hans2⟩ := preflight_inv hx2 hdirty
    subst hst
    obtain ⟨ob, w3, hx3, hrunD⟩ := run_bind_ok_inv hrunC
    obtain ⟨hob, hhead3, henv3, hans3⟩ := getCurrent_inv2 hx3
    obtain ⟨u4, w4, hx4, hrunE⟩ := run_bind_ok_inv hrunD
    obtain ⟨hhead4, henv4, hans4, _⟩ := emit_inv hx4
    have hbody := run_tryCatch_ok_inv hrunE (by
      intro m w9 hcon
      rw [run_bind_ok (run_emit _ w9)] at hcon
      cases hcon)
    unfold syncBody at hbody
    obtain ⟨report, w5, hx5, hbodyB⟩ := run_bind_ok_inv hbody
    obtain ⟨hhead5, henv5, hans5⟩ := checkBranchStatuses_inv hx5
    obtain ⟨oe, w6, hx6, hbodyC⟩ := run_bind_ok_inv hbodyB
    have hw6 : w6 = w5 := checkOriginProvided_inv hx6
    have henv6 : w6.env = w5.env := by rw [hw6]
    obtain ⟨u7, w7, hx7, hbodyD⟩ := run_bind_ok_inv hbodyC
    have henv7 : w7.env = w6.env := env_preserved frameT_remoteSync hx7
    obtain ⟨u8, w8, hx8, hbodyE⟩ := run_bind_ok_inv hbodyD
    have henv8 : w8.env = w7.env := env_preserved frameV_precheck hx8
    obtain ⟨u9, w9, hx9, hbodyF⟩ := run_bind_ok_inv hbodyE
    obtain ⟨hhead9, henv9, hans9, _⟩ := emit_inv hx9
    obtain ⟨u10, w10, hx10, hbodyG⟩ := run_bind_ok_inv hbodyF
    have henv10 : w10.env = w9.env := env_preserved frameT_realMergeLoop hx10
    obtain ⟨u11, w11, hx11, hbodyH⟩ := run_bind_ok_inv hbodyG
    obtain ⟨hhead11, henv11, hans11, _⟩ := emit_inv hx11
    obtain ⟨u12, w12, hx12, hbodyI⟩ := run_bind_ok_inv hbodyH
    have henv12 : w12.env = w11.env := env_preserved frameT_pushPhase hx12
    obtain ⟨u13, w13, hx13, hbodyJ⟩ := run_bind_ok_inv hbodyI
    obtain ⟨hhead13, henv13, hans13⟩ := returnToOriginal_inv hx13
    have henvAll : w13.env = env := by
      rw [henv13, henv12, henv11, henv10, henv9, henv8, henv7, henv6, henv5, henv4, henv3,
        henv2]
    have hobval : ob = env.initialBranch := by
      rw [hob, hhead2]
    rcases hpop : env.stashPopOk with _ | _
    · rw [run_restoreStash_popfail w13 (by rw [henvAll]; exact hpop)] at hbodyJ
      injection hbodyJ with _ hwf
      subst hwf
      refine ⟨?_, ?_, ?_, ?_⟩
      · show w13.head = env.initialBranch
        rw [hhead13, hobval]
      · exact List.mem_cons_of_mem _ (List.mem_cons_of_mem _ (List.mem_cons_self _ _))
      · intro hcon
        simp at hcon
      · intro _
        exact ⟨List.mem_cons_of_mem _ (List.mem_cons_self _ _), List.mem_cons_self _ _⟩
    · rw [run_restoreStash_pop w13 (by rw [henvAll]; exact hpop)] at hbodyJ
      injection hbodyJ with _ hwf
      subst hwf
      refine ⟨?_, ?_, ?_, ?_⟩
      · show w13.head = env.initialBranch
        rw [hhead13, hobval]
      · exact List.mem_cons_of_mem _ (List.mem_cons_self _ _)
      · intro _
        exact List.mem_cons_self _ _
      · intro hcon
        simp at hcon

/-- C1: In the real merge loop, the first conflict-shaped merge failure (the
merge fails and unmerged-path markers are present) is terminal: the run
exits with status 1, emits restart instructions, records the conflicted
pair, and no merge of any later adjacent pair is ever attempted. -/
theorem c1_real_merge_conflict_is_terminal (env : Env) (ans bs : List String) (i : Nat)
    (hi : i < bs.length - 1)
    (hpre : ∀ j, j < i → env.switchOk j = true ∧ env.mergeOk j = true)
    (hsw : env.switchOk i = true) (hmg : env.mergeOk i = false)
    (hca : env.conflictAfter i = true) :
    resCode (realMergeLoop bs (initW env ans)) = some 1 ∧
    Ev.restartInstructions ∈ resEvents (realMergeLoop bs (initW env ans)) ∧
    Ev.conflictsDetected (bs.getD i "") (bs.getD (i + 1) "") ∈
      resEvents (realMergeLoop bs (initW env ans)) ∧
    ∀ j s, Ev.mergeAttempt j s ∈ resEvents (realMergeLoop bs (initW env ans)) → j ≤ i := by
  obtain ⟨evs, hrun, h1, h2, h3⟩ :=
    loopAux_conflict env bs i hsw hmg hca (bs.length - 1) 0 (initW env ans) rfl
      (Nat.zero_le i) (by omega) (fun j _ hj => hpre j hj)
  unfold realMergeLoop
  rw [hrun]
  refine ⟨rfl, ?_, ?_, ?_⟩
  · show _ ∈ evs ++ ([] : List Ev)
    rw [List.append_nil]
    exact h1
  · show _ ∈ evs ++ ([] : List Ev)
    rw [List.append_nil]
    exact h2
  · intro j s hmem
    have hmem2 : Ev.mergeAttempt j s ∈ evs ++ ([] : List Ev) := hmem
    rw [List.append_nil] at hmem2
    exact (h3 j s hmem2).2

/-- C7 counterexample: with every real merge failing without unmerged-path
markers, the non-conflict failure is reported but the run still reaches
the success report and finishes with a success result, refuting the claim
that the run does not proceed to the success report. -/
theorem c7_success_report_after_nonconflict_failure_counterexample :
    Ev.mergeFailedNonConflict "main" "f1" ∈
      resEvents (runSync .provided { envBase with mergeOk := fun _ => false } [] ["main", "f1"]) ∧
    Ev.successReport ∈
      resEvents (runSync .provided { envBase with mergeOk := fun _ => false } [] ["main", "f1"]) ∧
    resOk (runSync .provided { envBase with mergeOk := fun _ => false } [] ["main", "f1"]) = true := by
  decide

/-- C5 counterexample: on a conflict-abort the process exits inside
handleConflicts, so the stash taken at preflight is never popped and the
originally recorded branch is not checked out again: the run ends with the
later branch of the conflicted pair checked out, refuting the claim that
the restore phase executes on every completion. -/
theorem c5_conflict_abort_skips_restore_counterexample :
    resCode (runSync .provided
      { envBase with dirty := true, mergeOk := fun _ => false, conflictAfter := fun _ => true }
      [] ["main", "f1"]) = some 1 ∧
    Ev.stashed ∈ resEvents (runSync .provided
      { envBase with dirty := true, mergeOk := fun _ => false, conflictAfter := fun _ => true }
      [] ["main", "f1"]) ∧
    Ev.restoringStash ∉ resEvents (runSync .provided
      { envBase with dirty := true, mergeOk := fun _ => false, conflictAfter := fun _ => true }
      [] ["main", "f1"]) ∧
    Ev.returningToOriginal "main" ∉ resEvents (runSync .provided
      { envBase with dirty := true, mergeOk := fun _ => false, conflictAfter := fun _ => true }
      [] ["main", "f1"]) ∧
    (runSync .provided
      { envBase with dirty := true, mergeOk := fun _ => false, conflictAfter := fun _ => true }
      [] ["main", "f1"]).2.head = "f1" ∧
    envBase.initialBranch = "main" := by
  decide

/-- C6 counterexample: with no origin remote, a stack branch that also does
not exist locally is classified not-found rather than no-remote, refuting
the claim that every branch is classified no-remote. -/
theorem c6_missing_local_branch_not_no_remote_counterexample :
    (∀ b, (({ envBase with q := fun x =>
        if x = "ghost" then ⟨false, false, false, 0, 0⟩
        else ⟨true, false, true, 0, 0⟩ } : Env).q b).remoteRevParseOk = false) ∧
    getBranchStatus (({ envBase with q := fun x =>
        if x = "ghost" then ⟨false, false, false, 0, 0⟩
        else ⟨true, false, true, 0, 0⟩ } : Env).q "ghost") "ghost" =
      ⟨"ghost", false, false, false, "not-found"⟩ ∧
    (checkBranchStatusesAux { envBase with q := fun x =>
        if x = "ghost" then ⟨false, false, false, 0, 0⟩
        else ⟨true, false, true, 0, 0⟩ } ["main", "ghost"]).1.map BranchStatusR.syncStatus =
      ["no-remote", "not-found"] :=
  ⟨fun b => by by_cases h : b = "ghost" <;> simp [h, envBase], by decide, by decide⟩

/-- C8: code bug: when the pre-check detects conflicts, the handler calls the
undefined logWarning right after listing the conflicting pairs, so a
ReferenceError (logWarning is not defined) is thrown before the
resolve-and-reinvoke instructions are printed; in a full run the
orchestrator catch turns this into exit status 1 and no real merge is
attempted. -/
theorem c8_predetected_conflicts_crash_before_instructions :
    resJsMsg (handlePreDetectedConflictsM [⟨"f1", "f2", some "merge failed"⟩]
        (initW envBase [])) = some "logWarning is not defined" ∧
    Ev.preInstructions ∉ resEvents (handlePreDetectedConflictsM
      [⟨"f1", "f2", some "merge failed"⟩] (initW envBase [])) ∧
    Ev.preConflictPair "f1" "f2" ∈ resEvents (handlePreDetectedConflictsM
      [⟨"f1", "f2", some "merge failed"⟩] (initW envBase [])) ∧
    resCode (runSync .provided { envBase with probeConflict := fun _ => true }
      [] ["f1", "f2"]) = some 1 ∧
    Ev.preInstructions ∉ resEvents (runSync .provided
      { envBase with probeConflict := fun _ => true } [] ["f1", "f2"]) ∧
    Ev.caughtError "logWarning is not defined" ∈ resEvents (runSync .provided
      { envBase with probeConflict := fun _ => true } [] ["f1", "f2"]) ∧
    (resEvents (runSync .provided { envBase with probeConflict := fun _ => true }
      [] ["f1", "f2"])).all (fun e => !e.isMergeAttempt) = true := by
  decide


theorem c1_real_merge_conflict_is_terminal_witness :
    ((0 : Nat) < ["main", "f1"].length - 1 ∧ envConflict.switchOk 0 = true ∧
      envConflict.mergeOk 0 = false ∧ envConflict.conflictAfter 0 = true) ∧
    (resCode (realMergeLoop ["main", "f1"] (initW envConflict [])) = some 1 ∧
      Ev.restartInstructions ∈ resEvents (realMergeLoop ["main", "f1"] (initW envConflict [])) ∧
      Ev.conflictsDetected (["main", "f1"].getD 0 "") (["main", "f1"].getD 1 "") ∈
        resEvents (realMergeLoop ["main", "f1"] (initW envConflict [])) ∧
      ∀ j s, Ev.mergeAttempt j s ∈ resEvents (realMergeLoop ["main", "f1"] (initW envConflict [])) →
        j ≤ 0) :=
  ⟨⟨by decide, by decide, by decide, by decide⟩,
    c1_real_merge_conflict_is_terminal envConflict [] ["main", "f1"] 0 (by decide)
      (fun j hj => absurd hj (by omega)) (by decide) (by decide) (by decide)⟩

theorem c2_missing_origin_check_aborts_every_run_witness :
    (envBase.inGitRepo = true ∧ envBase.statusQueryOk = true ∧
      envBase.stashOk = true ∧ envBase.curBranchOk = true) ∧
    (resCode (runSync .missing envBase [] ["main", "f1"]) = some 1 ∧
      Ev.caughtError "checkOriginExists is not a function" ∈
        resEvents (runSync .missing envBase [] ["main", "f1"]) ∧
      (∀ e ∈ resEvents (runSync .missing envBase [] ["main", "f1"]),
        e.isMergeAttempt = false) ∧
      ∀ b ∈ ["main", "f1"],
        Ev.statusLine b (getBranchStatus (envBase.q b) b).syncStatus ∈
          resEvents (runSync .missing envBase [] ["main", "f1"])) :=
  ⟨⟨rfl, rfl, rfl, rfl⟩, c2_missing_origin_check_aborts_every_run envBase [] ["main", "f1"] rfl rfl rfl rfl⟩

theorem c3_probe_cleanup_on_all_paths_witness :
    (repoBase.head ∈ repoBase.branches ∧ repoBase.mip = false ∧
      repoBase.conflicted = false ∧ tempName 7 ∉ repoBase.branches) ∧
    ((performDryRunMerge 7 "f1" "f2" repoBase).2.head = repoBase.head ∧
      (performDryRunMerge 7 "f1" "f2" repoBase).2.branches = repoBase.branches ∧
      (performDryRunMerge 7 "f1" "f2" repoBase).2.mip = false ∧
      (performDryRunMerge 7 "f1" "f2" repoBase).2.conflicted = false ∧
      tempName 7 ∉ (performDryRunMerge 7 "f1" "f2" repoBase).2.branches) :=
  ⟨⟨by decide, rfl, rfl, by decide⟩,
    c3_probe_cleanup_on_all_paths 7 "f1" "f2" repoBase (by decide) rfl rfl (by decide)⟩

theorem c4_probe_reports_conflict_iff_markers_witness :
    ((2 : Nat) ≤ ["main", "f1", "f2"].length ∧ 1 + 1 < ["main", "f1", "f2"].length ∧
      (∀ b ∈ ["main", "f1", "f2"], b ∈ repoBase.branches) ∧
      repoBase.head ∈ repoBase.branches ∧ repoBase.mip = false ∧
      repoBase.conflicted = false ∧ tempName 0 ∉ repoBase.branches) ∧
    (((performDryRunMerge ((fun (_ : Nat) => 0) 1) (["main", "f1", "f2"].getD 1 "")
          (["main", "f1", "f2"].getD 2 "") repoBase).1.hasConflicts = true ↔
        trialMergeLeavesMarkers repoBase (["main", "f1", "f2"].getD 1 "")
          (["main", "f1", "f2"].getD 2 "")) ∧
      (checkAllPotentialConflictsRepo (fun _ => 0) ["main", "f1", "f2"] repoBase).1 =
        (List.range (["main", "f1", "f2"].length - 1)).filterMap (fun j =>
          if trialMergeLeavesMarkers repoBase (["main", "f1", "f2"].getD j "")
              (["main", "f1", "f2"].getD (j + 1) "") then
            some ⟨["main", "f1", "f2"].getD j "", ["main", "f1", "f2"].getD (j + 1) "",
              some "merge failed"⟩
          else none)) :=
  ⟨⟨by decide, by decide, by decide, by decide, rfl, rfl, by decide⟩,
    c4_probe_reports_conflict_iff_markers (fun _ => 0) ["main", "f1", "f2"] repoBase 1 (by decide) (by decide)
      (by decide) (by decide) rfl rfl
      (fun _ => (by decide : tempName 0 ∉ repoBase.branches))⟩

theorem c5_restore_runs_on_normal_completion_witness :
    (envDirtyPopFail.dirty = true ∧
      resOk (runSync .provided envDirtyPopFail [] ["main", "f1"]) = true) ∧
    ((runSync .provided envDirtyPopFail [] ["main", "f1"]).2.head =
        envDirtyPopFail.initialBranch ∧
      Ev.restoringStash ∈ resEvents (runSync .provided envDirtyPopFail [] ["main", "f1"]) ∧
      (envDirtyPopFail.stashPopOk = true →
        Ev.info "stash restored" ∈
          resEvents (runSync .provided envDirtyPopFail [] ["main", "f1"])) ∧
      (envDirtyPopFail.stashPopOk = false →
        Ev.stashPopWarning ∈
          resEvents (runSync .provided envDirtyPopFail [] ["main", "f1"]) ∧
        Ev.stashPopManualHint ∈
          resEvents (runSync .provided envDirtyPopFail [] ["main", "f1"]))) :=
  ⟨⟨rfl, by decide⟩,
    c5_restore_runs_on_normal_completion envDirtyPopFail [] ["main", "f1"] rfl (by decide)⟩

theorem c7_nonconflict_failure_stops_merges_but_reports_success_witness :
    (envMergeFailNoConflict.inGitRepo = true ∧ envMergeFailNoConflict.dirty = false ∧
      envMergeFailNoConflict.originExists = false ∧
      envMergeFailNoConflict.config = some disableCfg ∧
      envMergeFailNoConflict.mergeOk 0 = false ∧
      envMergeFailNoConflict.conflictAfter 0 = false ∧
      (0 : Nat) < ["main", "f1"].length - 1) ∧
    (resOk (runSync .provided envMergeFailNoConflict [] ["main", "f1"]) = true ∧
      Ev.mergeFailedNonConflict (["main", "f1"].getD 0 "") (["main", "f1"].getD 1 "") ∈
        resEvents (runSync .provided envMergeFailNoConflict [] ["main", "f1"]) ∧
      Ev.successReport ∈
        resEvents (runSync .provided envMergeFailNoConflict [] ["main", "f1"]) ∧
      ∀ j s, Ev.mergeAttempt j s ∈
          resEvents (runSync .provided envMergeFailNoConflict [] ["main", "f1"]) → j ≤ 0) :=
  ⟨⟨rfl, rfl, rfl, rfl, rfl, rfl, by decide⟩,
    c7_nonconflict_failure_stops_merges_but_reports_success envMergeFailNoConflict [] ["main", "f1"] 0 rfl rfl rfl rfl rfl rfl
      (fun j hj => absurd hj (by omega)) rfl rfl rfl (by decide) (by decide) rfl⟩

theorem c9_query_failure_degrades_to_not_found_witness :
    ("ghost" ∈ ["main", "ghost"] ∧ (envGhost.q "ghost").showRefOk = false) ∧
    (getBranchStatus (envGhost.q "ghost") "ghost" =
        ⟨"ghost", false, false, false, "not-found"⟩ ∧
      (checkBranchStatusesAux envGhost ["main", "ghost"]).1 =
        ["main", "ghost"].map (fun x => getBranchStatus (envGhost.q x) x) ∧
      (checkBranchStatusesAux envGhost ["main", "ghost"]).1.length =
        ["main", "ghost"].length ∧
      (⟨"ghost", false, false, false, "not-found"⟩ : BranchStatusR) ∈
        (checkBranchStatusesAux envGhost ["main", "ghost"]).1) :=
  ⟨⟨by decide, by decide⟩,
    c9_query_failure_degrades_to_not_found envGhost ["main", "ghost"] "ghost" (by decide) (by decide)⟩

theorem c10_probe_error_treated_as_no_conflict_witness :
    ("nope" ∉ repoBase.branches) ∧
    ((performDryRunMerge 5 "f1" "nope" repoBase).1 =
        ⟨false, some "checkout -b failed"⟩ ∧
      (checkAllPotentialConflictsRepo (fun _ => 0) ["f1", "nope"] repoBase).1 = [] ∧
      handlePreDetectedConflictsM [] (initW envBase []) =
        (.ok true, { initW envBase [] with
          events := .noPreConflicts :: (initW envBase []).events })) :=
  ⟨by decide, c10_probe_error_treated_as_no_conflict 5 (fun _ => 0) "f1" "nope" repoBase (initW envBase []) (by decide)⟩
